import Mathlib

/-!
# I2C master driver for dsPIC33FJ (`i2c.c`, `i2c.h`)

A shallow embedding of the driver.  The memory-mapped peripheral registers are
explicit state; the peripheral, the bus and the device behind it are an
arbitrary reactive `Hardware` that may change the registers (and its own hidden
state) at every access the CPU makes and during every delay.  Ghost fields
record the primitives that were invoked, the status samples, the delays, the
bounded waits and the largest value the loop counter of `I2cTimeoutHandle`
reached.
-/

namespace I2C

/-! ## Constants of `i2c.h` and `i2c.c` -/

/-- Constant `#define TIMEOUT 240` (i2c.h). -/
def TIMEOUT : Nat := 240

/-- Constant `#define FFRAM_BAUD 363` (i2c.c). -/
def FFRAM_BAUD : Nat := 363

/-- Constant `#define FFRAM_ADDRESS 67` (i2c.c). -/
def FFRAM_ADDRESS : Nat := 67

/-- Constant `#define DEVICE_ID 10 // 1010` (i2c.c). -/
def DEVICE_ID : Nat := 10

/-- Constant `#define DEVICE_SELECT 0` (i2c.c). -/
def DEVICE_SELECT : Nat := 0

/-! ## The device header

`xc.h` is the toolchain's device header and is not part of the repository: the
bit positions of the fields the driver names are a parameter.  The header
defines the mask macro of a field (`_I2C1CON_SEN_MASK`, ...) as the single bit
of that field. -/

/-- Bit positions of the named fields of `I2C1CON`, `I2C1STAT`, `TRISB`, `IEC1` and
`IFS1`. -/
structure DeviceHeader where
  /-- Field `I2C1CONbits.SEN`, start condition enable. -/
  SEN : Nat
  /-- Field `I2C1CONbits.RSEN`, repeated start condition enable. -/
  RSEN : Nat
  /-- Field `I2C1CONbits.PEN`, stop condition enable. -/
  PEN : Nat
  /-- Field `I2C1CONbits.RCEN`, receive enable. -/
  RCEN : Nat
  /-- Field `I2C1CONbits.ACKEN`, acknowledge sequence enable. -/
  ACKEN : Nat
  /-- Field `I2C1CONbits.ACKDT`, acknowledge data bit. -/
  ACKDT : Nat
  /-- Field `I2C1STATbits.TBF`, transmit buffer full. -/
  TBF : Nat
  /-- Field `I2C1STATbits.TRSTAT`, transmit status. -/
  TRSTAT : Nat
  /-- Field `I2C1CONbits.I2CEN`, module enable. -/
  I2CEN : Nat
  /-- Field `I2C1CONbits.DISSLW`, slew rate control disable. -/
  DISSLW : Nat
  /-- Field `I2C1CONbits.A10M`, 10-bit slave address. -/
  A10M : Nat
  /-- Field `I2C1CONbits.SCLREL`, clock release control. -/
  SCLREL : Nat
  /-- Field `TRISBbits.TRISB9`, direction of the data pin. -/
  TRISB9 : Nat
  /-- Field `TRISBbits.TRISB8`, direction of the clock pin. -/
  TRISB8 : Nat
  /-- Field `IEC1bits.MI2C1IE`, master interrupt enable. -/
  MI2C1IE : Nat
  /-- Field `IFS1bits.MI2C1IF`, master interrupt flag. -/
  MI2C1IF : Nat
deriving DecidableEq, Repr

/-- The mask macro of the field at bit position `pos`. -/
def fieldMask (pos : Nat) : Nat := 1 <<< pos

/-- The field positions of the dsPIC33FJ family data sheet (I2CxCON, I2CxSTAT,
TRISB, IEC1, IFS1). -/
def dsPIC33FJ : DeviceHeader :=
  { SEN := 0, RSEN := 1, PEN := 2, RCEN := 3, ACKEN := 4, ACKDT := 5,
    TBF := 0, TRSTAT := 14,
    I2CEN := 15, DISSLW := 9, A10M := 10, SCLREL := 12,
    TRISB9 := 9, TRISB8 := 8, MI2C1IE := 1, MI2C1IF := 1 }

/-! ## Registers and hardware -/

/-- The special function registers the driver touches. -/
inductive Reg where
  | I2C1CON
  | I2C1STAT
  | I2C1TRN
  | I2C1RCV
  | I2C1BRG
  | I2C1ADD
  | TRISB
  | IEC1
  | IFS1
deriving DecidableEq, Repr

/-- Contents of the special function registers. -/
structure Regs where
  I2C1CON : Nat
  I2C1STAT : Nat
  I2C1TRN : Nat
  I2C1RCV : Nat
  I2C1BRG : Nat
  I2C1ADD : Nat
  TRISB : Nat
  IEC1 : Nat
  IFS1 : Nat
deriving DecidableEq, Repr

/-- Read one register. -/
def Regs.get (r : Regs) : Reg → Nat
  | .I2C1CON => r.I2C1CON
  | .I2C1STAT => r.I2C1STAT
  | .I2C1TRN => r.I2C1TRN
  | .I2C1RCV => r.I2C1RCV
  | .I2C1BRG => r.I2C1BRG
  | .I2C1ADD => r.I2C1ADD
  | .TRISB => r.TRISB
  | .IEC1 => r.IEC1
  | .IFS1 => r.IFS1

/-- Store into one register. -/
def Regs.set (r : Regs) : Reg → Nat → Regs
  | .I2C1CON, v => { r with I2C1CON := v }
  | .I2C1STAT, v => { r with I2C1STAT := v }
  | .I2C1TRN, v => { r with I2C1TRN := v }
  | .I2C1RCV, v => { r with I2C1RCV := v }
  | .I2C1BRG, v => { r with I2C1BRG := v }
  | .I2C1ADD, v => { r with I2C1ADD := v }
  | .TRISB, v => { r with TRISB := v }
  | .IEC1, v => { r with IEC1 := v }
  | .IFS1, v => { r with IFS1 := v }

/-- What the CPU has just done (a store), is about to do (a load), or a pause. -/
inductive Access where
  | write (reg : Reg)
  | read (reg : Reg)
  | delay
deriving DecidableEq, Repr

/-- A hardware behaviour: peripheral, bus and device with hidden state `σ`.
`react a s r` is what the hardware does to its state and to the registers after
the store `a`, before the load `a`, or while the CPU pauses. -/
structure Hardware (σ : Type) where
  react : Access → σ → Regs → σ × Regs

/-- One primitive invocation, as a mock bus would record it. -/
inductive Prim where
  | start
  | restart
  | stop
  | ack
  | nack
  | idle
  | writeByte (b : Nat)
  | readEnable
deriving DecidableEq, Repr

/-- Registers, hidden hardware state and the ghost record of a run. -/
structure World (σ : Type) where
  regs : Regs
  dev : σ
  /-- Primitives invoked so far, oldest first. -/
  trace : List Prim
  /-- Number of times a wait has sampled its condition. -/
  samples : Nat
  /-- Number of `__delay32(1)` calls. -/
  delays : Nat
  /-- Number of calls of `I2cTimeoutHandle`. -/
  waits : Nat
  /-- Largest value computed by `m++`, before the store into the `uint8_t`. -/
  peak : Nat

variable {σ : Type}

/-- The hardware reacts to the access `a`. -/
def hwStep (hw : Hardware σ) (a : Access) (w : World σ) : World σ :=
  { w with dev := (hw.react a w.dev w.regs).1, regs := (hw.react a w.dev w.regs).2 }

/-- A store of `v` into register `reg`. -/
def store (hw : Hardware σ) (reg : Reg) (v : Nat) (w : World σ) : World σ :=
  hwStep hw (.write reg) { w with regs := w.regs.set reg v }

/-- A load of register `reg`: the value and the world after it. -/
def load (hw : Hardware σ) (reg : Reg) (w : World σ) : Nat × World σ :=
  ((hwStep hw (.read reg) w).regs.get reg, hwStep hw (.read reg) w)

/-- The register value `v` with the bit at `pos` set to `b`. -/
def withBit (v : Nat) (pos : Nat) (b : Bool) : Nat :=
  if b then v ||| fieldMask pos else v ^^^ (v &&& fieldMask pos)

/-- A bit-field assignment such as `I2C1CONbits.SEN = 1`. -/
def storeBit (hw : Hardware σ) (reg : Reg) (pos : Nat) (b : Bool) (w : World σ) : World σ :=
  store hw reg (withBit (w.regs.get reg) pos b) w

/-- The call `__delay32(1)` of libpic30: a pause of one unit. -/
def delay32 (hw : Hardware σ) (w : World σ) : World σ :=
  hwStep hw .delay { w with delays := w.delays + 1 }

/-- One evaluation of `*i2cReg & mask`: the masked value and the world after it. -/
def sample (hw : Hardware σ) (reg : Reg) (mask : Nat) (w : World σ) : Nat × World σ :=
  ((load hw reg w).1 &&& mask, { (load hw reg w).2 with samples := w.samples + 1 })

/-! ## `I2cTimeoutHandle` -/

/-- The `for` loop of `I2cTimeoutHandle`, entered with the counter at `m`:
`for (uint8_t m = ...; m <= TIMEOUT; m++) { if ((*i2cReg & mask) == 0) return; __delay32(1); }`.
The increment is computed and then stored into the `uint8_t`. -/
def I2cTimeoutLoop (hw : Hardware σ) (reg : Reg) (mask : Nat) (m : Nat) (w : World σ) :
    World σ :=
  if m ≤ TIMEOUT then
    if (sample hw reg mask w).1 = 0 then
      (sample hw reg mask w).2
    else
      let w2 := delay32 hw (sample hw reg mask w).2
      I2cTimeoutLoop hw reg mask ((m + 1) % 256) { w2 with peak := max w2.peak (m + 1) }
  else w
termination_by TIMEOUT + 1 - m
decreasing_by
  simp only [TIMEOUT] at *
  omega

/-- Function `void I2cTimeoutHandle(volatile uint16_t* i2cReg, uint16_t mask)`. -/
def I2cTimeoutHandle (hw : Hardware σ) (reg : Reg) (mask : Nat) (w : World σ) : World σ :=
  I2cTimeoutLoop hw reg mask 0 { w with waits := w.waits + 1 }

/-! ## Bus primitives -/

/-- The mock bus records the invocation of primitive `p`. -/
def record (p : Prim) (w : World σ) : World σ :=
  { w with trace := w.trace ++ [p] }

/-- Function `void I2cInit(void)`. -/
def I2cInit (hdr : DeviceHeader) (hw : Hardware σ) (w : World σ) : World σ :=
  let w := store hw .I2C1BRG FFRAM_BAUD w
  let w := store hw .I2C1ADD FFRAM_ADDRESS w
  let w := storeBit hw .I2C1CON hdr.I2CEN false w
  let w := storeBit hw .I2C1CON hdr.DISSLW true w
  let w := storeBit hw .I2C1CON hdr.A10M false w
  let w := storeBit hw .I2C1CON hdr.SCLREL true w
  let w := storeBit hw .I2C1CON hdr.I2CEN true w
  let w := storeBit hw .TRISB hdr.TRISB9 true w
  let w := storeBit hw .TRISB hdr.TRISB8 true w
  let w := storeBit hw .IEC1 hdr.MI2C1IE false w
  storeBit hw .IFS1 hdr.MI2C1IF false w

/-- Function `void I2cStart(void)`. -/
def I2cStart (hdr : DeviceHeader) (hw : Hardware σ) (w : World σ) : World σ :=
  let w := record .start w
  let w := storeBit hw .I2C1CON hdr.ACKDT false w
  let w := storeBit hw .I2C1CON hdr.SEN true w
  I2cTimeoutHandle hw .I2C1CON (fieldMask hdr.SEN) w

/-- Function `void I2cAck(void)`. -/
def I2cAck (hdr : DeviceHeader) (hw : Hardware σ) (w : World σ) : World σ :=
  let w := record .ack w
  let w := storeBit hw .I2C1CON hdr.ACKDT false w
  let w := storeBit hw .I2C1CON hdr.ACKEN true w
  I2cTimeoutHandle hw .I2C1CON (fieldMask hdr.ACKEN) w

/-- Function `void I2cNack(void)`. -/
def I2cNack (hdr : DeviceHeader) (hw : Hardware σ) (w : World σ) : World σ :=
  let w := record .nack w
  let w := storeBit hw .I2C1CON hdr.ACKDT true w
  let w := storeBit hw .I2C1CON hdr.ACKEN true w
  I2cTimeoutHandle hw .I2C1CON (fieldMask hdr.ACKEN) w

/-- Function `void I2cStop(void)`. -/
def I2cStop (hdr : DeviceHeader) (hw : Hardware σ) (w : World σ) : World σ :=
  let w := record .stop w
  let w := storeBit hw .I2C1CON hdr.RCEN false w
  let w := storeBit hw .I2C1CON hdr.PEN true w
  I2cTimeoutHandle hw .I2C1CON (fieldMask hdr.PEN) w

/-- Function `void I2cRestart(void)`. -/
def I2cRestart (hdr : DeviceHeader) (hw : Hardware σ) (w : World σ) : World σ :=
  let w := record .restart w
  let w := storeBit hw .I2C1CON hdr.RSEN true w
  let w := I2cTimeoutHandle hw .I2C1CON (fieldMask hdr.RSEN) w
  let w := storeBit hw .I2C1CON hdr.ACKDT false w
  storeBit hw .I2C1STAT hdr.TBF false w

/-- Function `void I2cIdle(void)`. -/
def I2cIdle (hdr : DeviceHeader) (hw : Hardware σ) (w : World σ) : World σ :=
  let w := record .idle w
  I2cTimeoutHandle hw .I2C1STAT (fieldMask hdr.TRSTAT) w

/-- Function `void I2cWriteByte(uint8_t byte)`.  The source stores into `I2CTRN`, the
device header's name for the transmit register `I2C1TRN`. -/
def I2cWriteByte (hdr : DeviceHeader) (hw : Hardware σ) (byte : Nat) (w : World σ) :
    World σ :=
  let w := record (.writeByte byte) w
  let w := store hw .I2C1TRN byte w
  I2cTimeoutHandle hw .I2C1STAT (fieldMask hdr.TBF) w

/-- Function `void I2cReadByte(void)`.  The source assigns `I2CCONbits.RCEN`, the device
header's name for the receive-enable field of `I2C1CON`; there is no wait. -/
def I2cReadByte (hdr : DeviceHeader) (hw : Hardware σ) (w : World σ) : World σ :=
  let w := record .readEnable w
  storeBit hw .I2C1CON hdr.RCEN true w

/-! ## Address byte and transactions -/

/-- The local `res` of `I2cWriteAddress`:
`uint8_t res = (DEVICE_ID << 4 | select << 2 | page << 1 | op);`
computed in `int` and stored into a `uint8_t`. -/
def addressByte (select : Nat) (page op : Bool) : Nat :=
  (DEVICE_ID <<< 4 ||| select <<< 2 ||| page.toNat <<< 1 ||| op.toNat) % 256

/-- Function `void I2cWriteAddress(uint8_t select, bool page, bool op)`. -/
def I2cWriteAddress (hdr : DeviceHeader) (hw : Hardware σ) (select : Nat) (page op : Bool)
    (w : World σ) : World σ :=
  let res := addressByte select page op
  I2cWriteByte hdr hw res w

/-- Function `void I2cWriteReg(uint8_t select, uint16_t reg, uint8_t data)`. -/
def I2cWriteReg (hdr : DeviceHeader) (hw : Hardware σ) (select reg data : Nat)
    (w : World σ) : World σ :=
  let w := I2cStart hdr hw w
  let w := I2cWriteAddress hdr hw select false false w
  let w := I2cIdle hdr hw w
  let w := I2cWriteByte hdr hw ((reg >>> 8) % 256) w
  let w := I2cIdle hdr hw w
  let w := I2cWriteByte hdr hw ((reg % 256) % 256) w
  let w := I2cIdle hdr hw w
  let w := I2cWriteByte hdr hw data w
  let w := I2cIdle hdr hw w
  I2cStop hdr hw w

/-- Function `uint8_t I2cReadReg(uint8_t select, uint16_t reg)`; the last two statements
are `res = I2C1RCV; return res;` with `res` a `uint8_t`. -/
def I2cReadReg (hdr : DeviceHeader) (hw : Hardware σ) (select reg : Nat)
    (w : World σ) : Nat × World σ :=
  let w := I2cStart hdr hw w
  let w := I2cWriteAddress hdr hw select false false w
  let w := I2cIdle hdr hw w
  let w := I2cWriteByte hdr hw ((reg >>> 8) % 256) w
  let w := I2cIdle hdr hw w
  let w := I2cWriteByte hdr hw ((reg % 256) % 256) w
  let w := I2cIdle hdr hw w
  let w := I2cRestart hdr hw w
  let w := I2cWriteAddress hdr hw select false true w
  let w := I2cIdle hdr hw w
  let w := I2cReadByte hdr hw w
  let w := I2cNack hdr hw w
  let w := I2cStop hdr hw w
  let res := (load hw .I2C1RCV w).1 % 256
  (res, (load hw .I2C1RCV w).2)

/-! ## What a wait observes

The hardware state a wait meets depends on the hardware alone: one
unsuccessful round is the load of the status register followed by the delay. -/

/-- Hidden state and registers one unsuccessful round of a wait on `reg` later. -/
def pollRound (hw : Hardware σ) (reg : Reg) (s : σ × Regs) : σ × Regs :=
  hw.react .delay (hw.react (.read reg) s.1 s.2).1 (hw.react (.read reg) s.1 s.2).2

/-- The masked status bits that sample number `i + 1` of a wait begun in hardware
state `s` reads, when no earlier sample has ended the wait. -/
def pollValue (hw : Hardware σ) (reg : Reg) (mask : Nat) (s : σ × Regs) (i : Nat) : Nat :=
  (hw.react (.read reg) ((pollRound hw reg)^[i] s).1 ((pollRound hw reg)^[i] s).2).2.get reg
    &&& mask

/-- The masked status bits that sample number `k` of a wait begun in world `w`
reads; samples are numbered from 1. -/
def sampleNo (hw : Hardware σ) (reg : Reg) (mask : Nat) (w : World σ) (k : Nat) : Nat :=
  pollValue hw reg mask (w.dev, w.regs) (k - 1)

/-! ## Summary of a run -/

/-- The run from `w` to `w2` invoked exactly the primitives `T`, started `k`
waits, took at most `TIMEOUT + 1` samples in each and kept `m++` at or below
`TIMEOUT + 1`. -/
structure Runs (w w2 : World σ) (T : List Prim) (k : Nat) : Prop where
  trace_eq : w2.trace = w.trace ++ T
  waits_eq : w2.waits = w.waits + k
  samples_le : w2.samples ≤ w.samples + k * (TIMEOUT + 1)
  peak_le : w2.peak ≤ max w.peak (TIMEOUT + 1)

/-! ## Test hardware -/

/-- A dead peripheral: no access and no delay changes anything. -/
def unresponsive : Hardware Unit :=
  { react := fun _ s r => (s, r) }

/-- A peripheral that counts the loads made so far and answers the `n`-th and
every later load of a register with zero, the earlier ones with all bits set. -/
def clearsAt (n : Nat) : Hardware Nat :=
  { react := fun a c r =>
      match a with
      | .read reg => (c + 1, r.set reg (if n ≤ c + 1 then 0 else 0xFFFF))
      | _ => (c, r) }

/-- A bus whose transmit-status bit (`TRSTAT` of the dsPIC33FJ) is set, on a
dead peripheral: the bit stays set for ever. -/
def stuckBus : World Unit :=
  { regs := { I2C1CON := 0, I2C1STAT := 0x4000, I2C1TRN := 0, I2C1RCV := 0,
              I2C1BRG := 0, I2C1ADD := 0, TRISB := 0, IEC1 := 0, IFS1 := 0 },
    dev := (), trace := [], samples := 0, delays := 0, waits := 0, peak := 0 }

/-- All registers zero, nothing recorded yet. -/
def World.init (d : σ) : World σ :=
  { regs := { I2C1CON := 0, I2C1STAT := 0, I2C1TRN := 0, I2C1RCV := 0,
              I2C1BRG := 0, I2C1ADD := 0, TRISB := 0, IEC1 := 0, IFS1 := 0 },
    dev := d, trace := [], samples := 0, delays := 0, waits := 0, peak := 0 }


/-! ## A faithful bus simulator

A test double for the peripheral, the bus and the memory devices behind it, in
the register layout `hdr`.  Every pending bus event completes at once: at each
access the handshake bits `SEN`, `RSEN`, `PEN`, `RCEN`, `ACKEN`, `TBF` and
`TRSTAT` are cleared.  A device is addressed by the select and page bits of the
address byte; after a write address it latches two register-address bytes, high
byte first, and stores each further byte at the latched address; after a read
address it hands the stored byte of the latched address to the receive register
when receive is enabled. -/

/-- Where the simulated bus is within a transaction. -/
inductive BusPhase where
  | idle
  | address
  | regHi
  | regLo
  | data
  | reading
deriving DecidableEq, Repr

/-- Hidden state of the simulator. -/
structure Sim where
  phase : BusPhase
  /-- The device addressed by the last address byte (its select and page bits). -/
  chip : Nat
  /-- Per device, the latched register address. -/
  ptr : Nat → Nat
  /-- Per device, the stored byte of each register. -/
  mem : Nat → Nat → Nat

/-- The simulated bus takes the byte `b` from the transmit register. -/
def Sim.onByte (s : Sim) (b : Nat) : Sim :=
  match s.phase with
  | .address =>
    if b / 16 = DEVICE_ID then
      { s with phase := if b % 2 = 0 then .regHi else .reading, chip := (b / 2) % 8 }
    else { s with phase := .idle }
  | .regHi => { s with phase := .regLo, ptr := Function.update s.ptr s.chip (256 * b) }
  | .regLo =>
    { s with phase := .data, ptr := Function.update s.ptr s.chip (s.ptr s.chip + b) }
  | .data =>
    { s with
      mem := Function.update s.mem s.chip (Function.update (s.mem s.chip) (s.ptr s.chip) b),
      ptr := Function.update s.ptr s.chip ((s.ptr s.chip + 1) % 65536) }
  | .reading => s
  | .idle => s

/-- The simulated bus acts on the control bits found set in `I2C1CON`. -/
def Sim.onControl (hdr : DeviceHeader) (s : Sim) (r : Regs) : Sim × Regs :=
  if r.I2C1CON.testBit hdr.SEN then ({ s with phase := .address }, r)
  else if r.I2C1CON.testBit hdr.RSEN then ({ s with phase := .address }, r)
  else if r.I2C1CON.testBit hdr.PEN then ({ s with phase := .idle }, r)
  else if r.I2C1CON.testBit hdr.RCEN then
    if s.phase = .reading then
      ({ s with ptr := Function.update s.ptr s.chip ((s.ptr s.chip + 1) % 65536) },
       { r with I2C1RCV := s.mem s.chip (s.ptr s.chip) })
    else (s, r)
  else (s, r)

/-- Every pending bus event has completed: the handshake bits are clear. -/
def settle (hdr : DeviceHeader) (r : Regs) : Regs :=
  { r with
    I2C1CON :=
      withBit (withBit (withBit (withBit (withBit r.I2C1CON hdr.SEN false) hdr.RSEN false)
        hdr.PEN false) hdr.RCEN false) hdr.ACKEN false,
    I2C1STAT := withBit (withBit r.I2C1STAT hdr.TBF false) hdr.TRSTAT false }

/-- The faithful bus simulator. -/
def faithfulSim (hdr : DeviceHeader) : Hardware Sim :=
  { react := fun a s r =>
      match a with
      | .write .I2C1CON => ((s.onControl hdr r).1, settle hdr (s.onControl hdr r).2)
      | .write .I2C1TRN => (s.onByte r.I2C1TRN, settle hdr r)
      | _ => (s, settle hdr r) }

/-- The fields of `I2C1CON` that the driver names occupy different bits. -/
def DeviceHeader.WellFormed (hdr : DeviceHeader) : Prop :=
  [hdr.SEN, hdr.RSEN, hdr.PEN, hdr.RCEN, hdr.ACKEN, hdr.ACKDT].Nodup

/-- No bus event is pending in `I2C1CON`. -/
def Quiet (hdr : DeviceHeader) (r : Regs) : Prop :=
  r.I2C1CON.testBit hdr.SEN = false ∧ r.I2C1CON.testBit hdr.RSEN = false ∧
  r.I2C1CON.testBit hdr.PEN = false ∧ r.I2C1CON.testBit hdr.RCEN = false ∧
  r.I2C1CON.testBit hdr.ACKEN = false

/-- The world `w` has hidden state `s`, no pending bus event and `v` in the
receive register. -/
def At (hdr : DeviceHeader) (w : World Sim) (s : Sim) (v : Nat) : Prop :=
  w.dev = s ∧ Quiet hdr w.regs ∧ w.regs.I2C1RCV = v

/-! ## Protocol phases -/

/-- The primitives invoked between world `w` and the later world `w2`. -/
def issued (w w2 : World σ) : List Prim :=
  w2.trace.drop w.trace.length

/-- The phases of the per-transaction state machine. -/
inductive Phase where
  | START
  | ADDRESS
  | RESTART
  | DATA
  | ACK
  | NACK
  | STOP
deriving DecidableEq, Repr

/-- The phase sequence of a sequence of primitives.  A `writeByte` is the address
byte when it is the first one after a start or a restart (`addr` is true);
an idle wait belongs to the phase of the byte before it. -/
def phasesFrom : Bool → List Prim → List Phase
  | _, [] => []
  | _, .start :: t => .START :: phasesFrom true t
  | _, .restart :: t => .RESTART :: phasesFrom true t
  | addr, .writeByte _ :: t => (if addr then .ADDRESS else .DATA) :: phasesFrom false t
  | addr, .idle :: t => phasesFrom addr t
  | _, .readEnable :: t => .DATA :: phasesFrom false t
  | _, .ack :: t => .ACK :: phasesFrom false t
  | _, .nack :: t => .NACK :: phasesFrom false t
  | _, .stop :: t => .STOP :: phasesFrom false t

/-- The phase sequence of a transaction. -/
def phases (T : List Prim) : List Phase := phasesFrom false T

/-- Skip `DATA*`. -/
def dropData : List Phase → List Phase
  | .DATA :: t => dropData t
  | l => l

/-- The pattern `START, ADDRESS, (RESTART, ADDRESS)?, DATA*, (ACK|NACK), STOP`. -/
def matchesStateMachine : List Phase → Bool
  | .START :: .ADDRESS :: .RESTART :: .ADDRESS :: t =>
    dropData t = [.ACK, .STOP] || dropData t = [.NACK, .STOP]
  | .START :: .ADDRESS :: t =>
    dropData t = [.ACK, .STOP] || dropData t = [.NACK, .STOP]
  | _ => false

/-- The pattern `(ACK|NACK)?, STOP`. -/
def endsTransaction (l : List Phase) : Bool :=
  l = [.STOP] || l = [.ACK, .STOP] || l = [.NACK, .STOP]

/-- The pattern
`START, ADDRESS, DATA*, (RESTART, ADDRESS, DATA*)?, (ACK|NACK)?, STOP`. -/
def matchesDriverMachine : List Phase → Bool
  | .START :: .ADDRESS :: t =>
    match dropData t with
    | .RESTART :: .ADDRESS :: u => endsTransaction (dropData u)
    | u => endsTransaction u
  | _ => false

/-- Every `ADDRESS` phase is entered from `START` or from `RESTART`; `prev` is
the phase before the list. -/
def addressEntered : Option Phase → List Phase → Bool
  | _, [] => true
  | prev, .ADDRESS :: t =>
    (prev = some .START || prev = some .RESTART) && addressEntered (some .ADDRESS) t
  | _, p :: t => addressEntered (some p) t

/-! ## Idle waits after byte-level operations -/

/-- Every `writeByte` and every `readEnable` of the sequence has an idle wait as
the very next primitive. -/
def byteOpsIdle : List Prim → Bool
  | [] => true
  | .writeByte _ :: t => (t.head? = some .idle) && byteOpsIdle t
  | .readEnable :: t => (t.head? = some .idle) && byteOpsIdle t
  | _ :: t => byteOpsIdle t

/-- Every `writeByte` of the sequence has an idle wait as the very next
primitive. -/
def writesIdle : List Prim → Bool
  | [] => true
  | .writeByte _ :: t => (t.head? = some .idle) && writesIdle t
  | _ :: t => writesIdle t

/-! ## The acknowledge-data bit -/

/-- The registers `r` with the acknowledge-data bit `ACKDT` of `I2C1CON` set to `b`. -/
def setACKDT (hdr : DeviceHeader) (b : Bool) (r : Regs) : Regs :=
  r.set .I2C1CON (withBit r.I2C1CON hdr.ACKDT b)

/-- The hardware behaves the same whatever `ACKDT` holds: it neither reads nor
changes that bit. -/
def IgnoresACKDT (hdr : DeviceHeader) (hw : Hardware σ) : Prop :=
  ∀ (a : Access) (s : σ) (r : Regs) (b : Bool),
    hw.react a s (setACKDT hdr b r) = ((hw.react a s r).1, setACKDT hdr b (hw.react a s r).2)

/-- The register files `r` and `r2` differ in no register other than `I2C1CON`
and there in no bit other than `ACKDT`. -/
def DifferOnlyInACKDT (hdr : DeviceHeader) (r r2 : Regs) : Prop :=
  (∀ reg : Reg, reg ≠ .I2C1CON → r.get reg = r2.get reg) ∧
  (∀ i : Nat, i ≠ hdr.ACKDT → r.I2C1CON.testBit i = r2.I2C1CON.testBit i)

/-- The world `w` with `ACKDT` set to `b` and the record of primitives `T`. -/
def World.withACKDT (hdr : DeviceHeader) (b : Bool) (T : List Prim) (w : World σ) : World σ :=
  { w with regs := setACKDT hdr b w.regs, trace := T }

/-! ## More test hardware -/

/-- A peripheral that counts the loads made so far and, from the `n`-th load on,
reports the acknowledge sequence complete by clearing `ACKEN`; it touches no
other bit. -/
def ackCompletesAt (hdr : DeviceHeader) (n : Nat) : Hardware Nat :=
  { react := fun a c r =>
      match a with
      | .read _ =>
        (c + 1, if n ≤ c + 1 then r.set .I2C1CON (withBit r.I2C1CON hdr.ACKEN false) else r)
      | _ => (c, r) }

/-- A world of the dead peripheral: `I2C1CON`, `I2C1TRN` and `I2C1RCV` as given,
every status bit and every other register zero. -/
def deadWorld (con trn rcv : Nat) (T : List Prim) (samples delays waits peak : Nat) :
    World Unit :=
  { regs := { I2C1CON := con, I2C1STAT := 0, I2C1TRN := trn, I2C1RCV := rcv,
              I2C1BRG := 0, I2C1ADD := 0, TRISB := 0, IEC1 := 0, IFS1 := 0 },
    dev := (), trace := T, samples := samples, delays := delays, waits := waits,
    peak := peak }

/-! ## Hardware that reads the acknowledge-data bit -/

/-- The effect of the hardware on the registers does not depend on `ACKDT`: for
some relation `R` between hidden states that holds between every state and
itself, the reactions to one access from related hidden states and register
files that differ in `ACKDT` only lead to related hidden states and register
files that differ in `ACKDT` only.  The hidden state may depend on `ACKDT`. -/
def RegistersIgnoreACKDT (hdr : DeviceHeader) (hw : Hardware σ) : Prop :=
  ∃ R : σ → σ → Prop, (∀ s, R s s) ∧
    ∀ (a : Access) (s s2 : σ) (r r2 : Regs), R s s2 → DifferOnlyInACKDT hdr r r2 →
      R (hw.react a s r).1 (hw.react a s2 r2).1 ∧
      DifferOnlyInACKDT hdr (hw.react a s r).2 (hw.react a s2 r2).2

/-- The worlds `w` and `w2` have hidden states related by `R`, registers that
differ in `ACKDT` only and the same counts. -/
def AgreeButACKDT (hdr : DeviceHeader) (R : σ → σ → Prop) (w w2 : World σ) : Prop :=
  R w.dev w2.dev ∧ DifferOnlyInACKDT hdr w.regs w2.regs ∧ w.samples = w2.samples ∧
  w.delays = w2.delays ∧ w.waits = w2.waits ∧ w.peak = w2.peak

/-- A bus that shows the acknowledge level being driven in bit 15 of `I2C1STAT`:
at every access that bit becomes the value of `ACKDT`. -/
def mirrorsAck (hdr : DeviceHeader) : Hardware Unit :=
  { react := fun _ s r =>
      (s, { r with I2C1STAT := withBit r.I2C1STAT 15 (r.I2C1CON.testBit hdr.ACKDT) }) }

/-- A bus that hears the acknowledge level: the hidden state counts the loads and
keeps the value of `ACKDT` seen when `ACKEN` was last found set; from the `n`-th
load on the acknowledge sequence is reported complete by clearing `ACKEN`. -/
def hearsAck (hdr : DeviceHeader) (n : Nat) : Hardware (Nat × Option Bool) :=
  { react := fun a s r =>
      match a with
      | .read _ =>
        ((s.1 + 1, s.2),
         if n ≤ s.1 + 1 then r.set .I2C1CON (withBit r.I2C1CON hdr.ACKEN false) else r)
      | .write _ =>
        ((s.1, if r.I2C1CON.testBit hdr.ACKEN then some (r.I2C1CON.testBit hdr.ACKDT)
               else s.2), r)
      | .delay => (s, r) }

/-! ## Evaluation of a wait -/

/-- The loop of `I2cTimeoutHandle` with an explicit bound on the number of
rounds, for evaluation. -/
def waitRounds (hw : Hardware σ) (reg : Reg) (mask : Nat) : Nat → Nat → World σ → World σ
  | 0, _, w => w
  | n + 1, m, w =>
    if m ≤ TIMEOUT then
      if (sample hw reg mask w).1 = 0 then
        (sample hw reg mask w).2
      else
        waitRounds hw reg mask n ((m + 1) % 256)
          { delay32 hw (sample hw reg mask w).2 with
            peak := max (delay32 hw (sample hw reg mask w).2).peak (m + 1) }
    else w

/-! ## A simulator whose reception takes time -/

/-- Hidden state of the simulator with slow reception: the state of the bus
simulator and the reception in progress, if any, as the number of loads and
delays still to pass and the byte on its way. -/
structure SlowSim where
  sim : Sim
  pending : Option (Nat × Nat)

/-- The slow simulator acts on the control bits found set in `I2C1CON` as
`Sim.onControl` does, but the byte asked for by `RCEN` reaches `I2C1RCV` at the
`k`-th load or delay after that. -/
def SlowSim.onControl (hdr : DeviceHeader) (k : Nat) (s : SlowSim) (r : Regs) :
    SlowSim × Regs :=
  if r.I2C1CON.testBit hdr.SEN then ({ s with sim := { s.sim with phase := .address } }, r)
  else if r.I2C1CON.testBit hdr.RSEN then
    ({ s with sim := { s.sim with phase := .address } }, r)
  else if r.I2C1CON.testBit hdr.PEN then ({ s with sim := { s.sim with phase := .idle } }, r)
  else if r.I2C1CON.testBit hdr.RCEN then
    if s.sim.phase = .reading then
      ({ sim := { s.sim with
                  ptr := Function.update s.sim.ptr s.sim.chip
                    ((s.sim.ptr s.sim.chip + 1) % 65536) },
         pending := some (k, s.sim.mem s.sim.chip (s.sim.ptr s.sim.chip)) }, r)
    else (s, r)
  else (s, r)

@[simp] theorem hwStep_trace (hw : Hardware σ) (a : Access) (w : World σ) :
    (hwStep hw a w).trace = w.trace := rfl

@[simp] theorem hwStep_samples (hw : Hardware σ) (a : Access) (w : World σ) :
    (hwStep hw a w).samples = w.samples := rfl

@[simp] theorem hwStep_delays (hw : Hardware σ) (a : Access) (w : World σ) :
    (hwStep hw a w).delays = w.delays := rfl

@[simp] theorem hwStep_waits (hw : Hardware σ) (a : Access) (w : World σ) :
    (hwStep hw a w).waits = w.waits := rfl

@[simp] theorem hwStep_peak (hw : Hardware σ) (a : Access) (w : World σ) :
    (hwStep hw a w).peak = w.peak := rfl

@[simp] theorem store_trace (hw : Hardware σ) (reg : Reg) (v : Nat) (w : World σ) :
    (store hw reg v w).trace = w.trace := rfl

@[simp] theorem store_samples (hw : Hardware σ) (reg : Reg) (v : Nat) (w : World σ) :
    (store hw reg v w).samples = w.samples := rfl

@[simp] theorem store_delays (hw : Hardware σ) (reg : Reg) (v : Nat) (w : World σ) :
    (store hw reg v w).delays = w.delays := rfl

@[simp] theorem store_waits (hw : Hardware σ) (reg : Reg) (v : Nat) (w : World σ) :
    (store hw reg v w).waits = w.waits := rfl

@[simp] theorem store_peak (hw : Hardware σ) (reg : Reg) (v : Nat) (w : World σ) :
    (store hw reg v w).peak = w.peak := rfl

@[simp] theorem storeBit_trace (hw : Hardware σ) (reg : Reg) (pos : Nat) (b : Bool)
    (w : World σ) : (storeBit hw reg pos b w).trace = w.trace := rfl

@[simp] theorem storeBit_samples (hw : Hardware σ) (reg : Reg) (pos : Nat) (b : Bool)
    (w : World σ) : (storeBit hw reg pos b w).samples = w.samples := rfl

@[simp] theorem storeBit_delays (hw : Hardware σ) (reg : Reg) (pos : Nat) (b : Bool)
    (w : World σ) : (storeBit hw reg pos b w).delays = w.delays := rfl

@[simp] theorem storeBit_waits (hw : Hardware σ) (reg : Reg) (pos : Nat) (b : Bool)
    (w : World σ) : (storeBit hw reg pos b w).waits = w.waits := rfl

@[simp] theorem storeBit_peak (hw : Hardware σ) (reg : Reg) (pos : Nat) (b : Bool)
    (w : World σ) : (storeBit hw reg pos b w).peak = w.peak := rfl

@[simp] theorem record_trace (p : Prim) (w : World σ) :
    (record p w).trace = w.trace ++ [p] := rfl

@[simp] theorem record_samples (p : Prim) (w : World σ) :
    (record p w).samples = w.samples := rfl

@[simp] theorem record_delays (p : Prim) (w : World σ) :
    (record p w).delays = w.delays := rfl

@[simp] theorem record_waits (p : Prim) (w : World σ) :
    (record p w).waits = w.waits := rfl

@[simp] theorem record_peak (p : Prim) (w : World σ) :
    (record p w).peak = w.peak := rfl

@[simp] theorem load_trace (hw : Hardware σ) (reg : Reg) (w : World σ) :
    (load hw reg w).2.trace = w.trace := rfl

@[simp] theorem sample_trace (hw : Hardware σ) (reg : Reg) (mask : Nat) (w : World σ) :
    (sample hw reg mask w).2.trace = w.trace := rfl

@[simp] theorem sample_samples (hw : Hardware σ) (reg : Reg) (mask : Nat) (w : World σ) :
    (sample hw reg mask w).2.samples = w.samples + 1 := rfl

@[simp] theorem sample_delays (hw : Hardware σ) (reg : Reg) (mask : Nat) (w : World σ) :
    (sample hw reg mask w).2.delays = w.delays := rfl

@[simp] theorem sample_waits (hw : Hardware σ) (reg : Reg) (mask : Nat) (w : World σ) :
    (sample hw reg mask w).2.waits = w.waits := rfl

@[simp] theorem sample_peak (hw : Hardware σ) (reg : Reg) (mask : Nat) (w : World σ) :
    (sample hw reg mask w).2.peak = w.peak := rfl

@[simp] theorem delay32_trace (hw : Hardware σ) (w : World σ) :
    (delay32 hw w).trace = w.trace := rfl

@[simp] theorem delay32_samples (hw : Hardware σ) (w : World σ) :
    (delay32 hw w).samples = w.samples := rfl

@[simp] theorem delay32_delays (hw : Hardware σ) (w : World σ) :
    (delay32 hw w).delays = w.delays + 1 := rfl

@[simp] theorem delay32_waits (hw : Hardware σ) (w : World σ) :
    (delay32 hw w).waits = w.waits := rfl

@[simp] theorem delay32_peak (hw : Hardware σ) (w : World σ) :
    (delay32 hw w).peak = w.peak := rfl

/-! ## The wait loop -/

/-- The loop of `I2cTimeoutHandle` invokes no primitive. -/
theorem I2cTimeoutLoop_trace (hw : Hardware σ) (reg : Reg) (mask m : Nat) (w : World σ) :
    (I2cTimeoutLoop hw reg mask m w).trace = w.trace := by
  induction m, w using I2cTimeoutLoop.induct hw reg mask with
  | case1 m w hm h0 => rw [I2cTimeoutLoop, if_pos hm, if_pos h0]; rfl
  | case2 m w hm h0 w2 ih => rw [I2cTimeoutLoop, if_pos hm, if_neg h0]; simpa [w2] using ih
  | case3 m w hm => rw [I2cTimeoutLoop, if_neg hm]

/-- The loop of `I2cTimeoutHandle` starts no further wait. -/
theorem I2cTimeoutLoop_waits (hw : Hardware σ) (reg : Reg) (mask m : Nat) (w : World σ) :
    (I2cTimeoutLoop hw reg mask m w).waits = w.waits := by
  induction m, w using I2cTimeoutLoop.induct hw reg mask with
  | case1 m w hm h0 => rw [I2cTimeoutLoop, if_pos hm, if_pos h0]; rfl
  | case2 m w hm h0 w2 ih => rw [I2cTimeoutLoop, if_pos hm, if_neg h0]; simpa [w2] using ih
  | case3 m w hm => rw [I2cTimeoutLoop, if_neg hm]

/-- Entered with the counter at `m`, the loop takes at most `TIMEOUT + 1 - m` samples. -/
theorem I2cTimeoutLoop_samples_le (hw : Hardware σ) (reg : Reg) (mask m : Nat)
    (w : World σ) :
    (I2cTimeoutLoop hw reg mask m w).samples ≤ w.samples + (TIMEOUT + 1 - m) := by
  induction m, w using I2cTimeoutLoop.induct hw reg mask with
  | case1 m w hm h0 =>
    rw [I2cTimeoutLoop, if_pos hm, if_pos h0]
    simp only [sample_samples, TIMEOUT] at *
    omega
  | case2 m w hm h0 w2 ih =>
    rw [I2cTimeoutLoop, if_pos hm, if_neg h0]
    simp only [w2, delay32_samples, sample_samples, TIMEOUT] at *
    omega
  | case3 m w hm => rw [I2cTimeoutLoop, if_neg hm]; omega

/-- The value computed by `m++` never exceeds `TIMEOUT + 1`. -/
theorem I2cTimeoutLoop_peak_le (hw : Hardware σ) (reg : Reg) (mask m : Nat)
    (w : World σ) :
    (I2cTimeoutLoop hw reg mask m w).peak ≤ max w.peak (TIMEOUT + 1) := by
  induction m, w using I2cTimeoutLoop.induct hw reg mask with
  | case1 m w hm h0 =>
    rw [I2cTimeoutLoop, if_pos hm, if_pos h0]
    simp only [sample_peak]
    exact le_max_left _ _
  | case2 m w hm h0 w2 ih =>
    rw [I2cTimeoutLoop, if_pos hm, if_neg h0]
    simp only [w2, delay32_peak, sample_peak, TIMEOUT] at *
    omega
  | case3 m w hm => rw [I2cTimeoutLoop, if_neg hm]; exact le_max_left _ _

theorem sample_fst (hw : Hardware σ) (reg : Reg) (mask : Nat) (w : World σ) :
    (sample hw reg mask w).1 = pollValue hw reg mask (w.dev, w.regs) 0 := rfl

theorem pollValue_succ (hw : Hardware σ) (reg : Reg) (mask : Nat) (s : σ × Regs) (i : Nat) :
    pollValue hw reg mask s (i + 1) = pollValue hw reg mask (pollRound hw reg s) i := by
  simp only [pollValue, Function.iterate_succ, Function.comp_apply]

/-- If samples `1 .. j` read non-zero masked bits and sample `j + 1` reads zero,
the loop entered with the counter at `m`, `m + j ≤ TIMEOUT`, takes exactly
`j + 1` samples and `j` delays. -/
theorem I2cTimeoutLoop_clears (hw : Hardware σ) (reg : Reg) (mask : Nat) :
    ∀ (j m : Nat) (w : World σ), m + j ≤ TIMEOUT →
      (∀ i, i < j → pollValue hw reg mask (w.dev, w.regs) i ≠ 0) →
      pollValue hw reg mask (w.dev, w.regs) j = 0 →
      (I2cTimeoutLoop hw reg mask m w).samples = w.samples + (j + 1) ∧
      (I2cTimeoutLoop hw reg mask m w).delays = w.delays + j := by
  intro j
  induction j with
  | zero =>
    intro m w hm _ hz
    have h0 : (sample hw reg mask w).1 = 0 := by rw [sample_fst]; exact hz
    rw [I2cTimeoutLoop, if_pos (by omega), if_pos h0]
    exact ⟨rfl, rfl⟩
  | succ j ih =>
    intro m w hm hnz hz
    have h0 : ¬ (sample hw reg mask w).1 = 0 := by rw [sample_fst]; exact hnz 0 (by omega)
    have hm1 : (m + 1) % 256 = m + 1 := by
      simp only [TIMEOUT] at hm
      omega
    rw [I2cTimeoutLoop, if_pos (by omega), if_neg h0, hm1]
    have key := ih (m + 1)
      { delay32 hw (sample hw reg mask w).2 with
        peak := max (delay32 hw (sample hw reg mask w).2).peak (m + 1) }
      (by omega)
      (fun i hi => by
        have := hnz (i + 1) (by omega)
        rwa [pollValue_succ] at this)
      (by rwa [pollValue_succ] at hz)
    refine ⟨key.1.trans ?_, key.2.trans ?_⟩
    · simp only [delay32_samples, sample_samples]; omega
    · simp only [delay32_delays, sample_delays]; omega

/-- If no sample reads zero masked bits, the loop entered with the counter at
`m ≤ TIMEOUT + 1` takes exactly `TIMEOUT + 1 - m` samples and as many delays. -/
theorem I2cTimeoutLoop_expires (hw : Hardware σ) (reg : Reg) (mask : Nat) :
    ∀ (n m : Nat) (w : World σ), m + n = TIMEOUT + 1 →
      (∀ i, i < n → pollValue hw reg mask (w.dev, w.regs) i ≠ 0) →
      (I2cTimeoutLoop hw reg mask m w).samples = w.samples + n ∧
      (I2cTimeoutLoop hw reg mask m w).delays = w.delays + n := by
  intro n
  induction n with
  | zero =>
    intro m w hm _
    rw [I2cTimeoutLoop, if_neg (by omega)]
    exact ⟨rfl, rfl⟩
  | succ n ih =>
    intro m w hm hnz
    have h0 : ¬ (sample hw reg mask w).1 = 0 := by rw [sample_fst]; exact hnz 0 (by omega)
    have hm1 : (m + 1) % 256 = m + 1 := by
      simp only [TIMEOUT] at hm
      omega
    rw [I2cTimeoutLoop, if_pos (by omega), if_neg h0, hm1]
    have key := ih (m + 1)
      { delay32 hw (sample hw reg mask w).2 with
        peak := max (delay32 hw (sample hw reg mask w).2).peak (m + 1) }
      (by omega)
      (fun i hi => by
        have := hnz (i + 1) (by omega)
        rwa [pollValue_succ] at this)
    refine ⟨key.1.trans ?_, key.2.trans ?_⟩
    · simp only [delay32_samples, sample_samples]; omega
    · simp only [delay32_delays, sample_delays]; omega

theorem Runs.refl (w : World σ) : Runs w w [] 0 :=
  ⟨by simp, rfl, by omega, le_max_left _ _⟩

theorem Runs.trans {w w2 w3 : World σ} {T T2 : List Prim} {k k2 : Nat}
    (h : Runs w w2 T k) (h2 : Runs w2 w3 T2 k2) : Runs w w3 (T ++ T2) (k + k2) := by
  refine ⟨?_, ?_, ?_, ?_⟩
  · rw [h2.trace_eq, h.trace_eq, List.append_assoc]
  · rw [h2.waits_eq, h.waits_eq, Nat.add_assoc]
  · have h1 := h.samples_le
    have h3 := h2.samples_le
    rw [Nat.add_mul]
    omega
  · have h1 := h.peak_le
    have h3 := h2.peak_le
    omega

theorem I2cTimeoutHandle_runs (hw : Hardware σ) (reg : Reg) (mask : Nat) (w : World σ) :
    Runs w (I2cTimeoutHandle hw reg mask w) [] 1 := by
  refine ⟨?_, ?_, ?_, ?_⟩
  · simp [I2cTimeoutHandle, I2cTimeoutLoop_trace]
  · simp [I2cTimeoutHandle, I2cTimeoutLoop_waits]
  · have := I2cTimeoutLoop_samples_le hw reg mask 0 { w with waits := w.waits + 1 }
    simpa [I2cTimeoutHandle] using this
  · have := I2cTimeoutLoop_peak_le hw reg mask 0 { w with waits := w.waits + 1 }
    simpa [I2cTimeoutHandle] using this

theorem record_runs (p : Prim) (w : World σ) : Runs w (record p w) [p] 0 :=
  ⟨rfl, rfl, by simp, le_max_left _ _⟩

theorem store_runs (hw : Hardware σ) (reg : Reg) (v : Nat) (w : World σ) :
    Runs w (store hw reg v w) [] 0 :=
  ⟨by simp, rfl, by simp, le_max_left _ _⟩

theorem storeBit_runs (hw : Hardware σ) (reg : Reg) (pos : Nat) (b : Bool) (w : World σ) :
    Runs w (storeBit hw reg pos b w) [] 0 :=
  ⟨by simp, rfl, by simp, le_max_left _ _⟩

theorem I2cStart_runs (hdr : DeviceHeader) (hw : Hardware σ) (w : World σ) :
    Runs w (I2cStart hdr hw w) [.start] 1 :=
  ((((record_runs .start w).trans (storeBit_runs hw _ _ _ _)).trans
    (storeBit_runs hw _ _ _ _)).trans (I2cTimeoutHandle_runs hw _ _ _))

theorem I2cAck_runs (hdr : DeviceHeader) (hw : Hardware σ) (w : World σ) :
    Runs w (I2cAck hdr hw w) [.ack] 1 :=
  ((((record_runs .ack w).trans (storeBit_runs hw _ _ _ _)).trans
    (storeBit_runs hw _ _ _ _)).trans (I2cTimeoutHandle_runs hw _ _ _))

theorem I2cNack_runs (hdr : DeviceHeader) (hw : Hardware σ) (w : World σ) :
    Runs w (I2cNack hdr hw w) [.nack] 1 :=
  ((((record_runs .nack w).trans (storeBit_runs hw _ _ _ _)).trans
    (storeBit_runs hw _ _ _ _)).trans (I2cTimeoutHandle_runs hw _ _ _))

theorem I2cStop_runs (hdr : DeviceHeader) (hw : Hardware σ) (w : World σ) :
    Runs w (I2cStop hdr hw w) [.stop] 1 :=
  ((((record_runs .stop w).trans (storeBit_runs hw _ _ _ _)).trans
    (storeBit_runs hw _ _ _ _)).trans (I2cTimeoutHandle_runs hw _ _ _))

theorem I2cRestart_runs (hdr : DeviceHeader) (hw : Hardware σ) (w : World σ) :
    Runs w (I2cRestart hdr hw w) [.restart] 1 :=
  (((((record_runs .restart w).trans (storeBit_runs hw _ _ _ _)).trans
    (I2cTimeoutHandle_runs hw _ _ _)).trans (storeBit_runs hw _ _ _ _)).trans
    (storeBit_runs hw _ _ _ _))

theorem I2cIdle_runs (hdr : DeviceHeader) (hw : Hardware σ) (w : World σ) :
    Runs w (I2cIdle hdr hw w) [.idle] 1 :=
  (record_runs .idle w).trans (I2cTimeoutHandle_runs hw _ _ _)

theorem I2cWriteByte_runs (hdr : DeviceHeader) (hw : Hardware σ) (byte : Nat) (w : World σ) :
    Runs w (I2cWriteByte hdr hw byte w) [.writeByte byte] 1 :=
  ((record_runs (.writeByte byte) w).trans (store_runs hw _ _ _)).trans
    (I2cTimeoutHandle_runs hw _ _ _)

theorem I2cReadByte_runs (hdr : DeviceHeader) (hw : Hardware σ) (w : World σ) :
    Runs w (I2cReadByte hdr hw w) [.readEnable] 0 :=
  (record_runs .readEnable w).trans (storeBit_runs hw _ _ _ _)

theorem I2cWriteAddress_runs (hdr : DeviceHeader) (hw : Hardware σ) (select : Nat)
    (page op : Bool) (w : World σ) :
    Runs w (I2cWriteAddress hdr hw select page op w)
      [.writeByte (addressByte select page op)] 1 :=
  I2cWriteByte_runs hdr hw _ w

/-- Primitives, waits, samples and counter of a whole `I2cWriteReg`. -/
theorem I2cWriteReg_runs (hdr : DeviceHeader) (hw : Hardware σ) (select reg data : Nat)
    (w : World σ) :
    Runs w (I2cWriteReg hdr hw select reg data w)
      [.start, .writeByte (addressByte select false false), .idle,
       .writeByte ((reg >>> 8) % 256), .idle, .writeByte ((reg % 256) % 256), .idle,
       .writeByte data, .idle, .stop] 10 :=
  (((((((((I2cStart_runs hdr hw w).trans
    (I2cWriteAddress_runs hdr hw select false false _)).trans
    (I2cIdle_runs hdr hw _)).trans
    (I2cWriteByte_runs hdr hw _ _)).trans
    (I2cIdle_runs hdr hw _)).trans
    (I2cWriteByte_runs hdr hw _ _)).trans
    (I2cIdle_runs hdr hw _)).trans
    (I2cWriteByte_runs hdr hw _ _)).trans
    (I2cIdle_runs hdr hw _)).trans
    (I2cStop_runs hdr hw _)

/-- Function `I2cReadReg` is the twelve primitives before `I2cStop`, then `I2cStop`, then
the load of `I2C1RCV` truncated to a `uint8_t`. -/
theorem I2cReadReg_runs (hdr : DeviceHeader) (hw : Hardware σ) (select reg : Nat)
    (w : World σ) :
    ∃ w12 : World σ,
      Runs w w12
        [.start, .writeByte (addressByte select false false), .idle,
         .writeByte ((reg >>> 8) % 256), .idle, .writeByte ((reg % 256) % 256), .idle,
         .restart, .writeByte (addressByte select false true), .idle,
         .readEnable, .nack] 11 ∧
      I2cReadReg hdr hw select reg w =
        ((load hw .I2C1RCV (I2cStop hdr hw w12)).1 % 256,
         (load hw .I2C1RCV (I2cStop hdr hw w12)).2) :=
  ⟨_, (((((((((((I2cStart_runs hdr hw w).trans
    (I2cWriteAddress_runs hdr hw select false false _)).trans
    (I2cIdle_runs hdr hw _)).trans
    (I2cWriteByte_runs hdr hw _ _)).trans
    (I2cIdle_runs hdr hw _)).trans
    (I2cWriteByte_runs hdr hw _ _)).trans
    (I2cIdle_runs hdr hw _)).trans
    (I2cRestart_runs hdr hw _)).trans
    (I2cWriteAddress_runs hdr hw select false true _)).trans
    (I2cIdle_runs hdr hw _)).trans
    (I2cReadByte_runs hdr hw _)).trans
    (I2cNack_runs hdr hw _), rfl⟩

/-- Primitives, waits, samples and counter of a whole `I2cReadReg`. -/
theorem I2cReadReg_snd_runs (hdr : DeviceHeader) (hw : Hardware σ) (select reg : Nat)
    (w : World σ) :
    Runs w (I2cReadReg hdr hw select reg w).2
      [.start, .writeByte (addressByte select false false), .idle,
       .writeByte ((reg >>> 8) % 256), .idle, .writeByte ((reg % 256) % 256), .idle,
       .restart, .writeByte (addressByte select false true), .idle,
       .readEnable, .nack, .stop] 12 := by
  obtain ⟨w12, h12, heq⟩ := I2cReadReg_runs hdr hw select reg w
  rw [heq]
  have h13 := h12.trans (I2cStop_runs hdr hw w12)
  exact ⟨h13.trace_eq, h13.waits_eq, h13.samples_le, h13.peak_le⟩

/-! ## The address byte -/

/-- On the valid domain the `uint8_t` store of `res` truncates nothing. -/
theorem addressByte_eq (select : Nat) (page op : Bool) (hs : select < 4) :
    addressByte select page op =
      (10 <<< 4) ||| (select <<< 2) ||| (page.toNat <<< 1) ||| op.toNat := by
  interval_cases select <;> cases page <;> cases op <;> rfl

theorem addressByte_write (select : Nat) (hs : select < 4) :
    addressByte select false false = 0xA0 ||| select <<< 2 := by
  interval_cases select <;> rfl

theorem addressByte_read (select : Nat) (hs : select < 4) :
    addressByte select false true = 0xA1 ||| select <<< 2 := by
  interval_cases select <;> rfl

theorem shiftRight8_lt (reg : Nat) (hr : reg < 65536) : (reg >>> 8) % 256 = reg >>> 8 := by
  rw [Nat.shiftRight_eq_div_pow]
  apply Nat.mod_eq_of_lt
  omega

/-! ## Exact sample counts of `I2cTimeoutHandle` -/

/-- If the masked bits are non-zero at samples `1 .. N-1` and zero at sample `N`,
`1 ≤ N ≤ TIMEOUT + 1`, the wait takes exactly `N` samples and `N - 1` delays. -/
theorem I2cTimeoutHandle_clears (hw : Hardware σ) (reg : Reg) (mask : Nat) (w : World σ)
    (N : Nat) (h1 : 1 ≤ N) (hN : N ≤ TIMEOUT + 1)
    (hnz : ∀ k, 1 ≤ k → k < N → sampleNo hw reg mask w k ≠ 0)
    (hz : sampleNo hw reg mask w N = 0) :
    (I2cTimeoutHandle hw reg mask w).samples = w.samples + N ∧
    (I2cTimeoutHandle hw reg mask w).delays = w.delays + (N - 1) := by
  obtain ⟨j, rfl⟩ : ∃ j, N = j + 1 := ⟨N - 1, by omega⟩
  have key := I2cTimeoutLoop_clears hw reg mask j 0 { w with waits := w.waits + 1 }
    (by omega)
    (fun i hi => by
      have := hnz (i + 1) (by omega) (by omega)
      simpa [sampleNo] using this)
    (by simpa [sampleNo] using hz)
  simpa [I2cTimeoutHandle] using key

/-- If the masked bits are non-zero at each of the samples `1 .. TIMEOUT + 1`, the
wait takes exactly `TIMEOUT + 1` samples and as many delays. -/
theorem I2cTimeoutHandle_expires (hw : Hardware σ) (reg : Reg) (mask : Nat) (w : World σ)
    (hnz : ∀ k, 1 ≤ k → k ≤ TIMEOUT + 1 → sampleNo hw reg mask w k ≠ 0) :
    (I2cTimeoutHandle hw reg mask w).samples = w.samples + (TIMEOUT + 1) ∧
    (I2cTimeoutHandle hw reg mask w).delays = w.delays + (TIMEOUT + 1) := by
  have key := I2cTimeoutLoop_expires hw reg mask (TIMEOUT + 1) 0
    { w with waits := w.waits + 1 } (by omega)
    (fun i hi => by
      have := hnz (i + 1) (by omega) (by omega)
      simpa [sampleNo] using this)
  simpa [I2cTimeoutHandle] using key

/-- On a dead peripheral every sample reads the masked bits the wait began with. -/
theorem pollValue_unresponsive (reg : Reg) (mask : Nat) (s : Unit × Regs) (i : Nat) :
    pollValue unresponsive reg mask s i = s.2.get reg &&& mask := by
  induction i with
  | zero => rfl
  | succ i ih => rw [pollValue_succ]; exact ih

/-! ## Bits -/

theorem testBit_withBit (v pos : Nat) (b : Bool) (i : Nat) :
    (withBit v pos b).testBit i = if i = pos then b else v.testBit i := by
  unfold withBit fieldMask
  rw [Nat.one_shiftLeft]
  by_cases h : i = pos
  · subst h
    cases b <;> simp [Nat.testBit_two_pow_self]
  · have h2 : (2 ^ pos).testBit i = false := Nat.testBit_two_pow_of_ne (Ne.symm h)
    cases b <;> simp [h, h2]

theorem and_fieldMask_eq_zero (v pos : Nat) (h : v.testBit pos = false) :
    v &&& fieldMask pos = 0 := by
  rw [fieldMask, Nat.one_shiftLeft, Nat.and_two_pow, h]
  simp

/-! ## The simulator -/

theorem settle_quiet (hdr : DeviceHeader) (r : Regs) : Quiet hdr (settle hdr r) := by
  refine ⟨?_, ?_, ?_, ?_, ?_⟩ <;> simp only [settle, testBit_withBit] <;> split_ifs <;> rfl

/-- A property of the hardware state that loads of `reg` and delays preserve
holds when the wait loop returns. -/
theorem I2cTimeoutLoop_inv (hw : Hardware σ) (reg : Reg) (mask : Nat)
    (Inv : σ → Regs → Prop)
    (hread : ∀ s r, Inv s r → Inv (hw.react (.read reg) s r).1 (hw.react (.read reg) s r).2)
    (hdelay : ∀ s r, Inv s r → Inv (hw.react .delay s r).1 (hw.react .delay s r).2)
    (m : Nat) (w : World σ) (h : Inv w.dev w.regs) :
    Inv (I2cTimeoutLoop hw reg mask m w).dev (I2cTimeoutLoop hw reg mask m w).regs := by
  induction m, w using I2cTimeoutLoop.induct hw reg mask with
  | case1 m w hm h0 =>
    rw [I2cTimeoutLoop, if_pos hm, if_pos h0]
    exact hread _ _ h
  | case2 m w hm h0 w2 ih =>
    rw [I2cTimeoutLoop, if_pos hm, if_neg h0]
    exact ih (hdelay _ _ (hread _ _ h))
  | case3 m w hm => rw [I2cTimeoutLoop, if_neg hm]; exact h

theorem At_wait (hdr : DeviceHeader) (reg : Reg) (mask : Nat) (w : World Sim) (s : Sim)
    (v : Nat) (h : At hdr w s v) :
    At hdr (I2cTimeoutHandle (faithfulSim hdr) reg mask w) s v := by
  refine I2cTimeoutLoop_inv (faithfulSim hdr) reg mask
    (fun s2 r2 => s2 = s ∧ Quiet hdr r2 ∧ r2.I2C1RCV = v) ?_ ?_ 0 _ h
  · rintro s2 r2 ⟨hs, _, hv⟩
    exact ⟨hs, settle_quiet hdr r2, hv⟩
  · rintro s2 r2 ⟨hs, _, hv⟩
    exact ⟨hs, settle_quiet hdr r2, hv⟩

theorem At_record (hdr : DeviceHeader) (p : Prim) (w : World Sim) (s : Sim) (v : Nat)
    (h : At hdr w s v) : At hdr (record p w) s v := h

theorem At_storeByte (hdr : DeviceHeader) (b : Nat) (w : World Sim) (s : Sim) (v : Nat)
    (h : At hdr w s v) :
    At hdr (store (faithfulSim hdr) .I2C1TRN b w) (s.onByte b) v := by
  obtain ⟨hs, _, hv⟩ := h
  refine ⟨?_, settle_quiet hdr _, hv⟩
  simp only [store, hwStep, faithfulSim, Regs.set, hs]

theorem At_storeStatBit (hdr : DeviceHeader) (pos : Nat) (b : Bool) (w : World Sim) (s : Sim)
    (v : Nat) (h : At hdr w s v) :
    At hdr (storeBit (faithfulSim hdr) .I2C1STAT pos b w) s v := by
  obtain ⟨hs, _, hv⟩ := h
  exact ⟨hs, settle_quiet hdr _, hv⟩

/-- Clearing a control bit starts no bus event. -/
theorem At_clearBit (hdr : DeviceHeader) (pos : Nat) (w : World Sim) (s : Sim) (v : Nat)
    (h : At hdr w s v) :
    At hdr (storeBit (faithfulSim hdr) .I2C1CON pos false w) s v := by
  obtain ⟨hs, ⟨q1, q2, q3, q4, _⟩, hv⟩ := h
  have e : Sim.onControl hdr w.dev (w.regs.set .I2C1CON (withBit w.regs.I2C1CON pos false))
      = (w.dev, w.regs.set .I2C1CON (withBit w.regs.I2C1CON pos false)) := by
    simp only [Sim.onControl, Regs.set, testBit_withBit, q1, q2, q3, q4]
    simp
  refine ⟨?_, settle_quiet hdr _, ?_⟩
  · show (Sim.onControl hdr w.dev _).1 = s
    rw [show (w.regs.get .I2C1CON) = w.regs.I2C1CON from rfl, e]
    exact hs
  · show (settle hdr (Sim.onControl hdr w.dev _).2).I2C1RCV = v
    rw [show (w.regs.get .I2C1CON) = w.regs.I2C1CON from rfl, e]
    exact hv

/-- What the simulated bus makes of a control bit set while no event is pending. -/
theorem onControl_setBit (hdr : DeviceHeader) (pos : Nat) (s : Sim) (r : Regs)
    (hq : Quiet hdr r) :
    Sim.onControl hdr s (r.set .I2C1CON (withBit r.I2C1CON pos true)) =
      if hdr.SEN = pos then
        ({ s with phase := .address }, r.set .I2C1CON (withBit r.I2C1CON pos true))
      else if hdr.RSEN = pos then
        ({ s with phase := .address }, r.set .I2C1CON (withBit r.I2C1CON pos true))
      else if hdr.PEN = pos then
        ({ s with phase := .idle }, r.set .I2C1CON (withBit r.I2C1CON pos true))
      else if hdr.RCEN = pos then
        if s.phase = .reading then
          ({ s with ptr := Function.update s.ptr s.chip ((s.ptr s.chip + 1) % 65536) },
           { r.set .I2C1CON (withBit r.I2C1CON pos true) with
             I2C1RCV := s.mem s.chip (s.ptr s.chip) })
        else (s, r.set .I2C1CON (withBit r.I2C1CON pos true))
      else (s, r.set .I2C1CON (withBit r.I2C1CON pos true)) := by
  obtain ⟨q1, q2, q3, q4, _⟩ := hq
  simp only [Sim.onControl, Regs.set, testBit_withBit, q1, q2, q3, q4]
  simp

/-- Setting a control bit on the simulator: hidden state and receive register
afterwards are those `Sim.onControl` yields. -/
theorem At_setBit (hdr : DeviceHeader) (pos : Nat) (w : World Sim) (s : Sim) (v : Nat)
    (s2 : Sim) (v2 : Nat) (h : At hdr w s v)
    (hc : ∀ r : Regs, Quiet hdr r → r.I2C1RCV = v →
      (Sim.onControl hdr s (r.set .I2C1CON (withBit r.I2C1CON pos true))).1 = s2 ∧
      (Sim.onControl hdr s (r.set .I2C1CON (withBit r.I2C1CON pos true))).2.I2C1RCV = v2) :
    At hdr (storeBit (faithfulSim hdr) .I2C1CON pos true w) s2 v2 := by
  obtain ⟨hs, hq, hv⟩ := h
  have := hc w.regs hq hv
  rw [← hs] at this
  exact ⟨this.1, settle_quiet hdr _, this.2⟩

theorem At_setSEN (hdr : DeviceHeader) (w : World Sim) (s : Sim) (v : Nat)
    (h : At hdr w s v) :
    At hdr (storeBit (faithfulSim hdr) .I2C1CON hdr.SEN true w)
      { s with phase := .address } v := by
  refine At_setBit hdr hdr.SEN w s v _ _ h (fun r hq hv => ?_)
  rw [onControl_setBit hdr hdr.SEN s r hq, if_pos rfl]
  exact ⟨rfl, hv⟩

theorem At_setRSEN (hdr : DeviceHeader) (hwf : hdr.WellFormed) (w : World Sim) (s : Sim)
    (v : Nat) (h : At hdr w s v) :
    At hdr (storeBit (faithfulSim hdr) .I2C1CON hdr.RSEN true w)
      { s with phase := .address } v := by
  simp only [DeviceHeader.WellFormed, List.nodup_cons, List.mem_cons, not_or] at hwf
  refine At_setBit hdr hdr.RSEN w s v _ _ h (fun r hq hv => ?_)
  rw [onControl_setBit hdr hdr.RSEN s r hq, if_neg hwf.1.1, if_pos rfl]
  exact ⟨rfl, hv⟩

theorem At_setPEN (hdr : DeviceHeader) (hwf : hdr.WellFormed) (w : World Sim) (s : Sim)
    (v : Nat) (h : At hdr w s v) :
    At hdr (storeBit (faithfulSim hdr) .I2C1CON hdr.PEN true w)
      { s with phase := .idle } v := by
  simp only [DeviceHeader.WellFormed, List.nodup_cons, List.mem_cons, not_or] at hwf
  refine At_setBit hdr hdr.PEN w s v _ _ h (fun r hq hv => ?_)
  rw [onControl_setBit hdr hdr.PEN s r hq, if_neg hwf.1.2.1, if_neg hwf.2.1.1, if_pos rfl]
  exact ⟨rfl, hv⟩

theorem At_setRCEN (hdr : DeviceHeader) (hwf : hdr.WellFormed) (w : World Sim) (s : Sim)
    (v : Nat) (h : At hdr w s v) (hp : s.phase = .reading) :
    At hdr (storeBit (faithfulSim hdr) .I2C1CON hdr.RCEN true w)
      { s with ptr := Function.update s.ptr s.chip ((s.ptr s.chip + 1) % 65536) }
      (s.mem s.chip (s.ptr s.chip)) := by
  simp only [DeviceHeader.WellFormed, List.nodup_cons, List.mem_cons, not_or] at hwf
  refine At_setBit hdr hdr.RCEN w s v _ _ h (fun r hq _ => ?_)
  rw [onControl_setBit hdr hdr.RCEN s r hq, if_neg hwf.1.2.2.1, if_neg hwf.2.1.2.1,
    if_neg hwf.2.2.1.1, if_pos rfl, if_pos hp]
  exact ⟨rfl, rfl⟩

theorem At_setACKEN (hdr : DeviceHeader) (hwf : hdr.WellFormed) (w : World Sim) (s : Sim)
    (v : Nat) (h : At hdr w s v) :
    At hdr (storeBit (faithfulSim hdr) .I2C1CON hdr.ACKEN true w) s v := by
  simp only [DeviceHeader.WellFormed, List.nodup_cons, List.mem_cons, not_or] at hwf
  refine At_setBit hdr hdr.ACKEN w s v _ _ h (fun r hq hv => ?_)
  rw [onControl_setBit hdr hdr.ACKEN s r hq, if_neg hwf.1.2.2.2.1, if_neg hwf.2.1.2.2.1,
    if_neg hwf.2.2.1.2.1, if_neg hwf.2.2.2.1.1]
  exact ⟨rfl, hv⟩

theorem At_setACKDT (hdr : DeviceHeader) (hwf : hdr.WellFormed) (w : World Sim) (s : Sim)
    (v : Nat) (h : At hdr w s v) :
    At hdr (storeBit (faithfulSim hdr) .I2C1CON hdr.ACKDT true w) s v := by
  simp only [DeviceHeader.WellFormed, List.nodup_cons, List.mem_cons, not_or] at hwf
  refine At_setBit hdr hdr.ACKDT w s v _ _ h (fun r hq hv => ?_)
  rw [onControl_setBit hdr hdr.ACKDT s r hq, if_neg hwf.1.2.2.2.2.1, if_neg hwf.2.1.2.2.2.1,
    if_neg hwf.2.2.1.2.2.1, if_neg hwf.2.2.2.1.2.1]
  exact ⟨rfl, hv⟩

theorem At_I2cStart (hdr : DeviceHeader) (w : World Sim) (s : Sim) (v : Nat)
    (h : At hdr w s v) :
    At hdr (I2cStart hdr (faithfulSim hdr) w) { s with phase := .address } v :=
  At_wait hdr _ _ _ _ _ (At_setSEN hdr _ _ _ (At_clearBit hdr _ _ _ _ (At_record hdr .start w s v h)))

theorem At_I2cStop (hdr : DeviceHeader) (hwf : hdr.WellFormed) (w : World Sim) (s : Sim)
    (v : Nat) (h : At hdr w s v) :
    At hdr (I2cStop hdr (faithfulSim hdr) w) { s with phase := .idle } v :=
  At_wait hdr _ _ _ _ _
    (At_setPEN hdr hwf _ _ _ (At_clearBit hdr _ _ _ _ (At_record hdr .stop w s v h)))

theorem At_I2cRestart (hdr : DeviceHeader) (hwf : hdr.WellFormed) (w : World Sim) (s : Sim)
    (v : Nat) (h : At hdr w s v) :
    At hdr (I2cRestart hdr (faithfulSim hdr) w) { s with phase := .address } v :=
  At_storeStatBit hdr _ _ _ _ _ (At_clearBit hdr _ _ _ _
    (At_wait hdr _ _ _ _ _ (At_setRSEN hdr hwf _ _ _ (At_record hdr .restart w s v h))))

theorem At_I2cNack (hdr : DeviceHeader) (hwf : hdr.WellFormed) (w : World Sim) (s : Sim)
    (v : Nat) (h : At hdr w s v) :
    At hdr (I2cNack hdr (faithfulSim hdr) w) s v :=
  At_wait hdr _ _ _ _ _
    (At_setACKEN hdr hwf _ _ _ (At_setACKDT hdr hwf _ _ _ (At_record hdr .nack w s v h)))

theorem At_I2cIdle (hdr : DeviceHeader) (w : World Sim) (s : Sim) (v : Nat)
    (h : At hdr w s v) :
    At hdr (I2cIdle hdr (faithfulSim hdr) w) s v :=
  At_wait hdr _ _ _ _ _ (At_record hdr .idle w s v h)

theorem At_I2cWriteByte (hdr : DeviceHeader) (b : Nat) (w : World Sim) (s : Sim) (v : Nat)
    (h : At hdr w s v) :
    At hdr (I2cWriteByte hdr (faithfulSim hdr) b w) (s.onByte b) v :=
  At_wait hdr _ _ _ _ _ (At_storeByte hdr b _ _ _ (At_record hdr (.writeByte b) w s v h))

theorem At_I2cReadByte (hdr : DeviceHeader) (hwf : hdr.WellFormed) (w : World Sim) (s : Sim)
    (v : Nat) (h : At hdr w s v) (hp : s.phase = .reading) :
    At hdr (I2cReadByte hdr (faithfulSim hdr) w)
      { s with ptr := Function.update s.ptr s.chip ((s.ptr s.chip + 1) % 65536) }
      (s.mem s.chip (s.ptr s.chip)) :=
  At_setRCEN hdr hwf _ _ _ (At_record hdr .readEnable w s v h) hp

/-- The simulator after the start, the write address and the two
register-address bytes of a transaction with device `select`. -/
theorem onByte_addressed (s : Sim) (select reg : Nat) (hs : select < 4) (hr : reg < 65536) :
    ((({ s with phase := .address } : Sim).onByte (addressByte select false false)).onByte
        ((reg >>> 8) % 256)).onByte ((reg % 256) % 256) =
      { s with phase := .data, chip := 2 * select,
               ptr := Function.update s.ptr (2 * select) reg } := by
  have h1 : addressByte select false false / 16 = DEVICE_ID := by
    interval_cases select <;> rfl
  have h2 : addressByte select false false % 2 = 0 := by interval_cases select <;> rfl
  have h3 : addressByte select false false / 2 % 8 = 2 * select := by
    interval_cases select <;> rfl
  have h4 : 256 * ((reg >>> 8) % 256) + reg % 256 = reg := by
    rw [shiftRight8_lt reg hr, Nat.shiftRight_eq_div_pow]
    omega
  simp [Sim.onByte, h1, h2, h3, h4]

/-- The simulator after the read address of device `select`. -/
theorem onByte_read_address (s : Sim) (select : Nat) (hs : select < 4) :
    ({ s with phase := .address } : Sim).onByte (addressByte select false true) =
      { s with phase := .reading, chip := 2 * select } := by
  have h1 : addressByte select false true / 16 = DEVICE_ID := by
    interval_cases select <;> rfl
  have h2 : addressByte select false true % 2 = 1 := by interval_cases select <;> rfl
  have h3 : addressByte select false true / 2 % 8 = 2 * select := by
    interval_cases select <;> rfl
  simp [Sim.onByte, h1, h2, h3]

/-- After its first store the simulator has no bus event pending, so
`I2cStart` leaves it in the address phase whatever the registers held before. -/
theorem At_I2cStart_any (hdr : DeviceHeader) (w : World Sim) :
    ∃ (s : Sim) (v : Nat),
      At hdr (I2cStart hdr (faithfulSim hdr) w) { s with phase := .address } v :=
  ⟨_, _, At_wait hdr _ _ _ _ _ (At_setSEN hdr
    (storeBit (faithfulSim hdr) .I2C1CON hdr.ACKDT false (record .start w)) _ _
    ⟨rfl, settle_quiet hdr _, rfl⟩)⟩

/-- On the simulator `I2cWriteReg` stores `data` in register `reg` of device
`select` and leaves the bus at rest; `s` is the hidden state in which
`I2cStart` has put the bus into the address phase. -/
theorem At_I2cWriteReg (hdr : DeviceHeader) (hwf : hdr.WellFormed) (w : World Sim) (s : Sim)
    (v : Nat) (select reg data : Nat) (hs : select < 4) (hr : reg < 65536)
    (h1 : At hdr (I2cStart hdr (faithfulSim hdr) w) { s with phase := .address } v) :
    At hdr (I2cWriteReg hdr (faithfulSim hdr) select reg data w)
      { s with
        phase := .idle, chip := 2 * select,
        ptr := Function.update s.ptr (2 * select) ((reg + 1) % 65536),
        mem := Function.update s.mem (2 * select)
          (Function.update (s.mem (2 * select)) reg data) } v := by
  have h2 := At_I2cIdle hdr _ _ _ (At_I2cWriteByte hdr (addressByte select false false) _ _ _ h1)
  have h3 := At_I2cIdle hdr _ _ _ (At_I2cWriteByte hdr ((reg >>> 8) % 256) _ _ _ h2)
  have h4 := At_I2cIdle hdr _ _ _ (At_I2cWriteByte hdr ((reg % 256) % 256) _ _ _ h3)
  rw [onByte_addressed s select reg hs hr] at h4
  have h5 := At_I2cStop hdr hwf _ _ _
    (At_I2cIdle hdr _ _ _ (At_I2cWriteByte hdr data _ _ _ h4))
  simp only [Sim.onByte, Function.update_same, Function.update_idem] at h5
  exact h5

/-- On the simulator `I2cReadReg` returns the stored byte of register `reg` of
device `select`, as a `uint8_t`. -/
theorem I2cReadReg_sim (hdr : DeviceHeader) (hwf : hdr.WellFormed) (w : World Sim) (s : Sim)
    (v : Nat) (select reg : Nat) (hs : select < 4) (hr : reg < 65536)
    (h : At hdr w s v) :
    (I2cReadReg hdr (faithfulSim hdr) select reg w).1 = s.mem (2 * select) reg % 256 := by
  have h1 := At_I2cStart hdr w s v h
  have h2 := At_I2cIdle hdr _ _ _ (At_I2cWriteByte hdr (addressByte select false false) _ _ _ h1)
  have h3 := At_I2cIdle hdr _ _ _ (At_I2cWriteByte hdr ((reg >>> 8) % 256) _ _ _ h2)
  have h4 := At_I2cIdle hdr _ _ _ (At_I2cWriteByte hdr ((reg % 256) % 256) _ _ _ h3)
  rw [onByte_addressed s select reg hs hr] at h4
  have h5 := At_I2cRestart hdr hwf _ _ _ h4
  have h6 := At_I2cIdle hdr _ _ _ (At_I2cWriteByte hdr (addressByte select false true) _ _ _ h5)
  rw [show ({ ({ s with phase := .data, chip := 2 * select,
                        ptr := Function.update s.ptr (2 * select) reg } : Sim) with
              phase := .address } : Sim) =
        { ({ s with chip := 2 * select,
                    ptr := Function.update s.ptr (2 * select) reg } : Sim) with
          phase := .address } from rfl,
    onByte_read_address _ select hs] at h6
  have h7 := At_I2cStop hdr hwf _ _ _ (At_I2cNack hdr hwf _ _ _
    (At_I2cReadByte hdr hwf _ _ _ h6 rfl))
  have h8 : (I2cReadReg hdr (faithfulSim hdr) select reg w).1 =
      (Function.update s.ptr (2 * select) reg (2 * select) |> s.mem (2 * select)) % 256 := by
    have := h7.2.2
    simp only [I2cReadReg, load, hwStep, faithfulSim, settle, Regs.get]
    exact congrArg (· % 256) this
  rw [h8]
  simp

/-- On the simulator the handshake bits the driver waits on read as clear. -/
theorem settle_handshake (hdr : DeviceHeader) (r : Regs) :
    ((settle hdr r).get .I2C1CON).testBit hdr.SEN = false ∧
    ((settle hdr r).get .I2C1CON).testBit hdr.RSEN = false ∧
    ((settle hdr r).get .I2C1CON).testBit hdr.PEN = false ∧
    ((settle hdr r).get .I2C1CON).testBit hdr.ACKEN = false ∧
    ((settle hdr r).get .I2C1STAT).testBit hdr.TBF = false ∧
    ((settle hdr r).get .I2C1STAT).testBit hdr.TRSTAT = false := by
  refine ⟨?_, ?_, ?_, ?_, ?_, ?_⟩ <;>
    simp only [settle, Regs.get, testBit_withBit] <;> split_ifs <;> rfl

/-- On the simulator a wait on a bit that reads as clear ends at its first
sample: the phase completes within the timeout budget. -/
theorem faithfulSim_wait_first_sample (hdr : DeviceHeader) (reg : Reg) (pos : Nat)
    (w : World Sim) (h : ((settle hdr w.regs).get reg).testBit pos = false) :
    (I2cTimeoutHandle (faithfulSim hdr) reg (fieldMask pos) w).samples = w.samples + 1 := by
  refine (I2cTimeoutHandle_clears (faithfulSim hdr) reg (fieldMask pos) w 1 (le_refl 1)
    (by simp only [TIMEOUT]; omega) (fun k h1 h2 => absurd h1 (by omega)) ?_).1
  exact and_fieldMask_eq_zero _ _ h

/-! ## Phases of a transaction -/

theorem Runs.issued_eq {w w2 : World σ} {T : List Prim} {k : Nat} (h : Runs w w2 T k) :
    issued w w2 = T := by
  rw [issued, h.trace_eq, List.drop_left]

/-- Phase sequence of a register write, whatever its bytes. -/
theorem phases_write (a hi lo d : Nat) :
    phases [.start, .writeByte a, .idle, .writeByte hi, .idle, .writeByte lo, .idle,
      .writeByte d, .idle, .stop] = [.START, .ADDRESS, .DATA, .DATA, .DATA, .STOP] := rfl

/-- Phase sequence of a register read, whatever its bytes. -/
theorem phases_read (a hi lo a2 : Nat) :
    phases [.start, .writeByte a, .idle, .writeByte hi, .idle, .writeByte lo, .idle,
      .restart, .writeByte a2, .idle, .readEnable, .nack, .stop] =
      [.START, .ADDRESS, .DATA, .DATA, .RESTART, .ADDRESS, .DATA, .NACK, .STOP] := rfl

/-! ## Acknowledge and not-acknowledge -/

theorem withBit_withBit_same (v pos : Nat) (b b2 : Bool) :
    withBit (withBit v pos b) pos b2 = withBit v pos b2 := by
  apply Nat.eq_of_testBit_eq
  intro i
  simp only [testBit_withBit]
  split_ifs <;> rfl

theorem withBit_comm (v pos pos2 : Nat) (b b2 : Bool) (h : pos ≠ pos2) :
    withBit (withBit v pos b) pos2 b2 = withBit (withBit v pos2 b2) pos b := by
  apply Nat.eq_of_testBit_eq
  intro i
  simp only [testBit_withBit]
  by_cases h1 : i = pos2
  · subst h1
    simp [Ne.symm h]
  · simp [h1]

theorem and_fieldMask_withBit (v pos p : Nat) (b : Bool) (h : p ≠ pos) :
    withBit v pos b &&& fieldMask p = v &&& fieldMask p := by
  rw [fieldMask, Nat.one_shiftLeft, Nat.and_two_pow, Nat.and_two_pow, testBit_withBit,
    if_neg h]

theorem setACKDT_setACKDT (hdr : DeviceHeader) (b b2 : Bool) (r : Regs) :
    setACKDT hdr b2 (setACKDT hdr b r) = setACKDT hdr b2 r := by
  simp only [setACKDT, Regs.set, withBit_withBit_same]

theorem hwStep_withACKDT (hdr : DeviceHeader) (hw : Hardware σ) (h : IgnoresACKDT hdr hw)
    (a : Access) (b : Bool) (T : List Prim) (w : World σ) :
    hwStep hw a (World.withACKDT hdr b T w) = World.withACKDT hdr b T (hwStep hw a w) := by
  simp only [hwStep, World.withACKDT, h a w.dev w.regs b]

theorem storeBit_withACKDT (hdr : DeviceHeader) (hw : Hardware σ) (h : IgnoresACKDT hdr hw)
    (pos : Nat) (v b : Bool) (T : List Prim) (w : World σ) (hp : hdr.ACKDT ≠ pos) :
    storeBit hw .I2C1CON pos v (World.withACKDT hdr b T w) =
      World.withACKDT hdr b T (storeBit hw .I2C1CON pos v w) := by
  have e : (⟨(setACKDT hdr b w.regs).set .I2C1CON
        (withBit ((setACKDT hdr b w.regs).get .I2C1CON) pos v),
      w.dev, T, w.samples, w.delays, w.waits, w.peak⟩ : World σ) =
      World.withACKDT hdr b T
        { w with regs := w.regs.set .I2C1CON (withBit (w.regs.get .I2C1CON) pos v) } := by
    simp only [World.withACKDT, setACKDT, Regs.set, Regs.get, withBit_comm _ _ _ _ _ hp]
  show hwStep hw (.write .I2C1CON) _ = _
  rw [show storeBit hw .I2C1CON pos v w = hwStep hw (.write .I2C1CON)
    { w with regs := w.regs.set .I2C1CON (withBit (w.regs.get .I2C1CON) pos v) } from rfl,
    ← hwStep_withACKDT hdr hw h, ← e]
  rfl

theorem sample_withACKDT (hdr : DeviceHeader) (hw : Hardware σ) (h : IgnoresACKDT hdr hw)
    (pos : Nat) (b : Bool) (T : List Prim) (w : World σ) (hp : pos ≠ hdr.ACKDT) :
    (sample hw .I2C1CON (fieldMask pos) (World.withACKDT hdr b T w)).1 =
      (sample hw .I2C1CON (fieldMask pos) w).1 ∧
    (sample hw .I2C1CON (fieldMask pos) (World.withACKDT hdr b T w)).2 =
      World.withACKDT hdr b T (sample hw .I2C1CON (fieldMask pos) w).2 := by
  simp only [sample, load, hwStep_withACKDT hdr hw h]
  constructor
  · exact and_fieldMask_withBit _ _ _ _ hp
  · rfl

theorem delay32_withACKDT (hdr : DeviceHeader) (hw : Hardware σ) (h : IgnoresACKDT hdr hw)
    (b : Bool) (T : List Prim) (w : World σ) :
    delay32 hw (World.withACKDT hdr b T w) = World.withACKDT hdr b T (delay32 hw w) := by
  show hwStep hw .delay (World.withACKDT hdr b T { w with delays := w.delays + 1 }) = _
  rw [hwStep_withACKDT hdr hw h]
  rfl

/-- A wait on another bit of `I2C1CON` runs the same whatever `ACKDT` holds. -/
theorem I2cTimeoutLoop_withACKDT (hdr : DeviceHeader) (hw : Hardware σ)
    (h : IgnoresACKDT hdr hw) (pos : Nat) (b : Bool) (T : List Prim)
    (hp : pos ≠ hdr.ACKDT) (m : Nat) (w : World σ) :
    I2cTimeoutLoop hw .I2C1CON (fieldMask pos) m (World.withACKDT hdr b T w) =
      World.withACKDT hdr b T (I2cTimeoutLoop hw .I2C1CON (fieldMask pos) m w) := by
  induction m, w using I2cTimeoutLoop.induct hw .I2C1CON (fieldMask pos) with
  | case1 m w hm h0 =>
    conv_lhs => rw [I2cTimeoutLoop, if_pos hm, (sample_withACKDT hdr hw h pos b T w hp).1,
      if_pos h0, (sample_withACKDT hdr hw h pos b T w hp).2]
    conv_rhs => rw [I2cTimeoutLoop, if_pos hm, if_pos h0]
  | case2 m w hm h0 w2 ih =>
    conv_lhs => rw [I2cTimeoutLoop, if_pos hm, (sample_withACKDT hdr hw h pos b T w hp).1,
      if_neg h0, (sample_withACKDT hdr hw h pos b T w hp).2]
    conv_rhs => rw [I2cTimeoutLoop, if_pos hm, if_neg h0]
    simp only [delay32_withACKDT hdr hw h]
    exact ih
  | case3 m w hm =>
    conv_lhs => rw [I2cTimeoutLoop, if_neg hm]
    conv_rhs => rw [I2cTimeoutLoop, if_neg hm]

theorem I2cTimeoutHandle_withACKDT (hdr : DeviceHeader) (hw : Hardware σ)
    (h : IgnoresACKDT hdr hw) (pos : Nat) (b : Bool) (T : List Prim)
    (hp : pos ≠ hdr.ACKDT) (w : World σ) :
    I2cTimeoutHandle hw .I2C1CON (fieldMask pos) (World.withACKDT hdr b T w) =
      World.withACKDT hdr b T (I2cTimeoutHandle hw .I2C1CON (fieldMask pos) w) :=
  I2cTimeoutLoop_withACKDT hdr hw h pos b T hp 0 { w with waits := w.waits + 1 }

/-- The acknowledge sequence with `ACKDT = b2`, recorded as `p2`, ends in the
state of the sequence with `ACKDT = b`, recorded as `p`, but for `ACKDT` and the
record. -/
theorem ackSequence_withACKDT (hdr : DeviceHeader) (hw : Hardware σ)
    (h : IgnoresACKDT hdr hw) (hne : hdr.ACKDT ≠ hdr.ACKEN) (b b2 : Bool) (p p2 : Prim)
    (w : World σ) :
    I2cTimeoutHandle hw .I2C1CON (fieldMask hdr.ACKEN)
        (storeBit hw .I2C1CON hdr.ACKEN true
          (storeBit hw .I2C1CON hdr.ACKDT b2 (record p2 w))) =
      World.withACKDT hdr b2 (w.trace ++ [p2])
        (I2cTimeoutHandle hw .I2C1CON (fieldMask hdr.ACKEN)
          (storeBit hw .I2C1CON hdr.ACKEN true
            (storeBit hw .I2C1CON hdr.ACKDT b (record p w)))) := by
  have e : storeBit hw .I2C1CON hdr.ACKDT b2 (record p2 w) =
      World.withACKDT hdr b2 (w.trace ++ [p2])
        (storeBit hw .I2C1CON hdr.ACKDT b (record p w)) := by
    rw [show storeBit hw .I2C1CON hdr.ACKDT b (record p w) = hwStep hw (.write .I2C1CON)
      { record p w with regs := setACKDT hdr b w.regs } from rfl,
      ← hwStep_withACKDT hdr hw h]
    show hwStep hw (.write .I2C1CON) { record p2 w with regs := setACKDT hdr b2 w.regs } = _
    simp only [World.withACKDT, setACKDT_setACKDT, record]
  rw [e, storeBit_withACKDT hdr hw h hdr.ACKEN true b2 _ _ hne,
    I2cTimeoutHandle_withACKDT hdr hw h hdr.ACKEN b2 _ (Ne.symm hne)]

theorem setACKDT_differ (hdr : DeviceHeader) (b : Bool) (r : Regs) :
    DifferOnlyInACKDT hdr r (setACKDT hdr b r) := by
  constructor
  · intro reg hreg
    cases reg <;> first | exact absurd rfl hreg | rfl
  · intro i hi
    show _ = (withBit r.I2C1CON hdr.ACKDT b).testBit i
    rw [testBit_withBit, if_neg hi]

/-- A wait on a dead peripheral leaves every register as it was. -/
theorem unresponsive_wait_regs (reg : Reg) (mask : Nat) (v : World Unit) :
    (I2cTimeoutHandle unresponsive reg mask v).regs = v.regs :=
  I2cTimeoutLoop_inv unresponsive reg mask (fun _ r => r = v.regs)
    (fun _ _ h => h) (fun _ _ h => h) 0 { v with waits := v.waits + 1 } rfl

theorem ackCompletesAt_ignoresACKDT (hdr : DeviceHeader) (n : Nat)
    (hne : hdr.ACKDT ≠ hdr.ACKEN) : IgnoresACKDT hdr (ackCompletesAt hdr n) := by
  intro a c r b
  cases a with
  | read reg =>
    simp only [ackCompletesAt]
    split_ifs
    · simp only [setACKDT, Regs.set, withBit_comm _ _ _ _ _ hne]
    · rfl
  | write reg => rfl
  | delay => rfl

/-! ## The receive register -/

theorem set_rcv (r : Regs) (reg : Reg) (x : Nat) (h : reg ≠ .I2C1RCV) :
    (r.set reg x).I2C1RCV = r.I2C1RCV := by
  cases reg <;> first | exact absurd rfl h | rfl

theorem store_rcv (hw : Hardware σ)
    (hR : ∀ a s r, (hw.react a s r).2.I2C1RCV = r.I2C1RCV)
    (reg : Reg) (x : Nat) (w : World σ) (h : reg ≠ .I2C1RCV) :
    (store hw reg x w).regs.I2C1RCV = w.regs.I2C1RCV :=
  (hR _ _ _).trans (set_rcv w.regs reg x h)

theorem storeBit_rcv (hw : Hardware σ)
    (hR : ∀ a s r, (hw.react a s r).2.I2C1RCV = r.I2C1RCV)
    (reg : Reg) (pos : Nat) (b : Bool) (w : World σ) (h : reg ≠ .I2C1RCV) :
    (storeBit hw reg pos b w).regs.I2C1RCV = w.regs.I2C1RCV :=
  store_rcv hw hR reg _ w h

theorem storeBitCON_rcv (hw : Hardware σ)
    (hR : ∀ a s r, (hw.react a s r).2.I2C1RCV = r.I2C1RCV)
    (pos : Nat) (b : Bool) (w : World σ) :
    (storeBit hw .I2C1CON pos b w).regs.I2C1RCV = w.regs.I2C1RCV :=
  storeBit_rcv hw hR .I2C1CON pos b w (by decide)

theorem storeBitSTAT_rcv (hw : Hardware σ)
    (hR : ∀ a s r, (hw.react a s r).2.I2C1RCV = r.I2C1RCV)
    (pos : Nat) (b : Bool) (w : World σ) :
    (storeBit hw .I2C1STAT pos b w).regs.I2C1RCV = w.regs.I2C1RCV :=
  storeBit_rcv hw hR .I2C1STAT pos b w (by decide)

theorem storeTRN_rcv (hw : Hardware σ)
    (hR : ∀ a s r, (hw.react a s r).2.I2C1RCV = r.I2C1RCV)
    (x : Nat) (w : World σ) :
    (store hw .I2C1TRN x w).regs.I2C1RCV = w.regs.I2C1RCV :=
  store_rcv hw hR .I2C1TRN x w (by decide)

theorem wait_rcv (hw : Hardware σ)
    (hR : ∀ a s r, (hw.react a s r).2.I2C1RCV = r.I2C1RCV)
    (reg : Reg) (mask : Nat) (w : World σ) :
    (I2cTimeoutHandle hw reg mask w).regs.I2C1RCV = w.regs.I2C1RCV :=
  I2cTimeoutLoop_inv hw reg mask (fun _ r => r.I2C1RCV = w.regs.I2C1RCV)
    (fun _ _ h => (hR _ _ _).trans h) (fun _ _ h => (hR _ _ _).trans h) 0
    { w with waits := w.waits + 1 } rfl

theorem I2cStart_rcv (hdr : DeviceHeader) (hw : Hardware σ)
    (hR : ∀ a s r, (hw.react a s r).2.I2C1RCV = r.I2C1RCV) (w : World σ) :
    (I2cStart hdr hw w).regs.I2C1RCV = w.regs.I2C1RCV := by
  simp only [I2cStart, wait_rcv hw hR, storeBitCON_rcv hw hR, storeBitSTAT_rcv hw hR]
  rfl

theorem I2cStop_rcv (hdr : DeviceHeader) (hw : Hardware σ)
    (hR : ∀ a s r, (hw.react a s r).2.I2C1RCV = r.I2C1RCV) (w : World σ) :
    (I2cStop hdr hw w).regs.I2C1RCV = w.regs.I2C1RCV := by
  simp only [I2cStop, wait_rcv hw hR, storeBitCON_rcv hw hR, storeBitSTAT_rcv hw hR]
  rfl

theorem I2cNack_rcv (hdr : DeviceHeader) (hw : Hardware σ)
    (hR : ∀ a s r, (hw.react a s r).2.I2C1RCV = r.I2C1RCV) (w : World σ) :
    (I2cNack hdr hw w).regs.I2C1RCV = w.regs.I2C1RCV := by
  simp only [I2cNack, wait_rcv hw hR, storeBitCON_rcv hw hR, storeBitSTAT_rcv hw hR]
  rfl

theorem I2cRestart_rcv (hdr : DeviceHeader) (hw : Hardware σ)
    (hR : ∀ a s r, (hw.react a s r).2.I2C1RCV = r.I2C1RCV) (w : World σ) :
    (I2cRestart hdr hw w).regs.I2C1RCV = w.regs.I2C1RCV := by
  simp only [I2cRestart, wait_rcv hw hR, storeBitCON_rcv hw hR, storeBitSTAT_rcv hw hR]
  rfl

theorem I2cIdle_rcv (hdr : DeviceHeader) (hw : Hardware σ)
    (hR : ∀ a s r, (hw.react a s r).2.I2C1RCV = r.I2C1RCV) (w : World σ) :
    (I2cIdle hdr hw w).regs.I2C1RCV = w.regs.I2C1RCV := by
  simp only [I2cIdle, wait_rcv hw hR]
  rfl

theorem I2cWriteByte_rcv (hdr : DeviceHeader) (hw : Hardware σ)
    (hR : ∀ a s r, (hw.react a s r).2.I2C1RCV = r.I2C1RCV) (b : Nat) (w : World σ) :
    (I2cWriteByte hdr hw b w).regs.I2C1RCV = w.regs.I2C1RCV := by
  simp only [I2cWriteByte, wait_rcv hw hR, storeTRN_rcv hw hR]
  rfl

theorem I2cReadByte_rcv (hdr : DeviceHeader) (hw : Hardware σ)
    (hR : ∀ a s r, (hw.react a s r).2.I2C1RCV = r.I2C1RCV) (w : World σ) :
    (I2cReadByte hdr hw w).regs.I2C1RCV = w.regs.I2C1RCV := by
  simp only [I2cReadByte, storeBitCON_rcv hw hR, storeBitSTAT_rcv hw hR]
  rfl

/-- On hardware that never changes the receive register `I2cReadReg` returns
what the register held before the call, as a `uint8_t`, and leaves it there. -/
theorem I2cReadReg_rcv (hdr : DeviceHeader) (hw : Hardware σ)
    (hR : ∀ a s r, (hw.react a s r).2.I2C1RCV = r.I2C1RCV) (select reg : Nat)
    (w : World σ) :
    (I2cReadReg hdr hw select reg w).1 = w.regs.I2C1RCV % 256 ∧
    (I2cReadReg hdr hw select reg w).2.regs.I2C1RCV = w.regs.I2C1RCV := by
  have key : ∀ w13 : World σ, (load hw .I2C1RCV w13).2.regs.I2C1RCV = w13.regs.I2C1RCV :=
    fun w13 => hR _ _ _
  simp only [I2cReadReg, I2cWriteAddress]
  constructor
  · show (load hw .I2C1RCV _).2.regs.I2C1RCV % 256 = _
    rw [key]
    simp only [I2cStop_rcv hdr hw hR, I2cNack_rcv hdr hw hR, I2cReadByte_rcv hdr hw hR,
      I2cIdle_rcv hdr hw hR, I2cWriteByte_rcv hdr hw hR, I2cRestart_rcv hdr hw hR,
      I2cStart_rcv hdr hw hR]
  · rw [key]
    simp only [I2cStop_rcv hdr hw hR, I2cNack_rcv hdr hw hR, I2cReadByte_rcv hdr hw hR,
      I2cIdle_rcv hdr hw hR, I2cWriteByte_rcv hdr hw hR, I2cRestart_rcv hdr hw hR,
      I2cStart_rcv hdr hw hR]

/-! ## Waits on a dead peripheral -/

/-- On a dead peripheral a wait on bits that read non-zero runs the loop to its
end. -/
theorem I2cTimeoutLoop_dead_stuck (reg : Reg) (mask : Nat) :
    ∀ (n m : Nat) (v : World Unit), m + n = TIMEOUT + 1 → v.regs.get reg &&& mask ≠ 0 →
      I2cTimeoutLoop unresponsive reg mask m v =
        { v with samples := v.samples + n, delays := v.delays + n,
                 peak := if n = 0 then v.peak else max v.peak (TIMEOUT + 1) } := by
  intro n
  induction n with
  | zero =>
    intro m v hm _
    rw [I2cTimeoutLoop, if_neg (by omega)]
    rfl
  | succ n ih =>
    intro m v hm hnz
    have h0 : ¬ (sample unresponsive reg mask v).1 = 0 := hnz
    have hm1 : (m + 1) % 256 = m + 1 := by
      simp only [TIMEOUT] at hm
      omega
    rw [I2cTimeoutLoop, if_pos (by omega), if_neg h0, hm1]
    have key := ih (m + 1)
      { delay32 unresponsive (sample unresponsive reg mask v).2 with
        peak := max (delay32 unresponsive (sample unresponsive reg mask v).2).peak (m + 1) }
      (by omega) hnz
    refine key.trans ?_
    obtain ⟨regs, dev, trace, samples, delays, waits, peak⟩ := v
    simp only [delay32, sample, load, hwStep, unresponsive, World.mk.injEq, true_and]
    simp only [TIMEOUT] at hm ⊢
    refine ⟨by omega, by omega, ?_⟩
    rw [if_neg (Nat.succ_ne_zero n)]
    by_cases hn : n = 0
    · rw [if_pos hn, show m + 1 = 240 + 1 by omega]
    · rw [if_neg hn, sup_assoc, sup_of_le_right (show m + 1 ≤ 240 + 1 by omega)]

/-- A wait on a dead peripheral: one sample when the masked bits read zero, the
whole budget of 241 samples and delays otherwise. -/
theorem I2cTimeoutHandle_dead (reg : Reg) (mask : Nat) (v : World Unit) :
    I2cTimeoutHandle unresponsive reg mask v =
      if v.regs.get reg &&& mask = 0 then
        { v with waits := v.waits + 1, samples := v.samples + 1 }
      else
        { v with waits := v.waits + 1, samples := v.samples + 241,
                 delays := v.delays + 241, peak := max v.peak 241 } := by
  split_ifs with h
  · have h0 : (sample unresponsive reg mask { v with waits := v.waits + 1 }).1 = 0 := h
    rw [I2cTimeoutHandle, I2cTimeoutLoop, if_pos (by simp only [TIMEOUT]; omega), if_pos h0]
    rfl
  · rw [I2cTimeoutHandle,
      I2cTimeoutLoop_dead_stuck reg mask (TIMEOUT + 1) 0 { v with waits := v.waits + 1 }
        (by omega) h]
    rfl

theorem hwStep_dead (a : Access) (v : World Unit) : hwStep unresponsive a v = v := rfl

theorem withBit_true_and_fieldMask (c pos : Nat) : withBit c pos true &&& fieldMask pos ≠ 0 := by
  rw [fieldMask, Nat.one_shiftLeft, Nat.and_two_pow, testBit_withBit, if_pos rfl]
  simp

theorem withBit_zero_false (pos : Nat) : withBit 0 pos false = 0 := by
  simp [withBit]

/-- On a dead peripheral with clear status bits `I2cStart` waits out its budget. -/
theorem I2cStart_dead (hdr : DeviceHeader) (c t r : Nat) (T : List Prim) (n d k p : Nat) :
    I2cStart hdr unresponsive (deadWorld c t r T n d k p) =
      deadWorld (withBit (withBit c hdr.ACKDT false) hdr.SEN true) t r (T ++ [.start])
        (n + 241) (d + 241) (k + 1) (max p 241) := by
  simp only [I2cStart, record, storeBit, store, hwStep_dead, deadWorld, Regs.set,
    Regs.get, I2cTimeoutHandle_dead]
  rw [if_neg (withBit_true_and_fieldMask _ _)]

/-- On a dead peripheral with clear status bits `I2cWriteByte` returns at its
first sample. -/
theorem I2cWriteByte_dead (hdr : DeviceHeader) (b c t r : Nat) (T : List Prim)
    (n d k p : Nat) :
    I2cWriteByte hdr unresponsive b (deadWorld c t r T n d k p) =
      deadWorld c b r (T ++ [.writeByte b]) (n + 1) d (k + 1) p := by
  simp only [I2cWriteByte, record, store, hwStep_dead, deadWorld, Regs.set,
    Regs.get, I2cTimeoutHandle_dead]
  rw [if_pos (Nat.zero_and _)]

/-- On a dead peripheral with clear status bits `I2cIdle` returns at its first
sample. -/
theorem I2cIdle_dead (hdr : DeviceHeader) (c t r : Nat) (T : List Prim) (n d k p : Nat) :
    I2cIdle hdr unresponsive (deadWorld c t r T n d k p) =
      deadWorld c t r (T ++ [.idle]) (n + 1) d (k + 1) p := by
  simp only [I2cIdle, record, deadWorld, Regs.get, I2cTimeoutHandle_dead]
  rw [if_pos (Nat.zero_and _)]

/-- On a dead peripheral with clear status bits `I2cRestart` waits out its
budget. -/
theorem I2cRestart_dead (hdr : DeviceHeader) (c t r : Nat) (T : List Prim) (n d k p : Nat) :
    I2cRestart hdr unresponsive (deadWorld c t r T n d k p) =
      deadWorld (withBit (withBit c hdr.RSEN true) hdr.ACKDT false) t r (T ++ [.restart])
        (n + 241) (d + 241) (k + 1) (max p 241) := by
  simp only [I2cRestart, record, storeBit, store, hwStep_dead, deadWorld, Regs.set,
    Regs.get, I2cTimeoutHandle_dead]
  rw [if_neg (withBit_true_and_fieldMask _ _)]
  simp only [withBit_zero_false]

theorem I2cReadByte_dead (hdr : DeviceHeader) (c t r : Nat) (T : List Prim) (n d k p : Nat) :
    I2cReadByte hdr unresponsive (deadWorld c t r T n d k p) =
      deadWorld (withBit c hdr.RCEN true) t r (T ++ [.readEnable]) n d k p := by
  simp only [I2cReadByte, record, storeBit, store, hwStep_dead, deadWorld, Regs.set,
    Regs.get]

/-- On a dead peripheral with clear status bits `I2cNack` waits out its budget. -/
theorem I2cNack_dead (hdr : DeviceHeader) (c t r : Nat) (T : List Prim) (n d k p : Nat) :
    I2cNack hdr unresponsive (deadWorld c t r T n d k p) =
      deadWorld (withBit (withBit c hdr.ACKDT true) hdr.ACKEN true) t r (T ++ [.nack])
        (n + 241) (d + 241) (k + 1) (max p 241) := by
  simp only [I2cNack, record, storeBit, store, hwStep_dead, deadWorld, Regs.set,
    Regs.get, I2cTimeoutHandle_dead]
  rw [if_neg (withBit_true_and_fieldMask _ _)]

/-- On a dead peripheral with clear status bits `I2cStop` waits out its budget. -/
theorem I2cStop_dead (hdr : DeviceHeader) (c t r : Nat) (T : List Prim) (n d k p : Nat) :
    I2cStop hdr unresponsive (deadWorld c t r T n d k p) =
      deadWorld (withBit (withBit c hdr.RCEN false) hdr.PEN true) t r (T ++ [.stop])
        (n + 241) (d + 241) (k + 1) (max p 241) := by
  simp only [I2cStop, record, storeBit, store, hwStep_dead, deadWorld, Regs.set,
    Regs.get, I2cTimeoutHandle_dead]
  rw [if_neg (withBit_true_and_fieldMask _ _)]

/-- On a dead peripheral with clear status bits `I2cReadReg` takes 972 samples in
its 12 waits: the waits on `SEN`, `RSEN`, `ACKEN` and `PEN` run out their budget of
241 samples, the eight waits on `TBF` and `TRSTAT` return at their first sample. -/
theorem I2cReadReg_dead (hdr : DeviceHeader) (select reg c t r : Nat) (T : List Prim)
    (n d k p : Nat) :
    (I2cReadReg hdr unresponsive select reg (deadWorld c t r T n d k p)).2.samples = n + 972 ∧
    (I2cReadReg hdr unresponsive select reg (deadWorld c t r T n d k p)).2.delays = d + 964 ∧
    (I2cReadReg hdr unresponsive select reg (deadWorld c t r T n d k p)).2.waits = k + 12 := by
  simp only [I2cReadReg, I2cWriteAddress, I2cStart_dead, I2cWriteByte_dead, I2cIdle_dead,
    I2cRestart_dead, I2cReadByte_dead, I2cNack_dead, I2cStop_dead, load, hwStep_dead]
  simp only [deadWorld]
  exact ⟨trivial, trivial, trivial⟩

/-! ## Accesses of a wait -/

/-- The wait loop reaches the hardware through loads of `reg` and delays only:
its final hardware state is the hardware's own reaction to such accesses. -/
theorem I2cTimeoutLoop_accesses (hw : Hardware σ) (reg : Reg) (mask m : Nat) (w : World σ) :
    ∃ accs : List Access,
      (∀ a ∈ accs, a = .read reg ∨ a = .delay) ∧
      ((I2cTimeoutLoop hw reg mask m w).dev, (I2cTimeoutLoop hw reg mask m w).regs) =
        accs.foldl (fun s a => hw.react a s.1 s.2) (w.dev, w.regs) := by
  induction m, w using I2cTimeoutLoop.induct hw reg mask with
  | case1 m w hm h0 =>
    refine ⟨[.read reg], by simp, ?_⟩
    rw [I2cTimeoutLoop, if_pos hm, if_pos h0]
    rfl
  | case2 m w hm h0 w2 ih =>
    obtain ⟨accs, hall, heq⟩ := ih
    refine ⟨.read reg :: .delay :: accs, ?_, ?_⟩
    · intro a ha
      simp only [List.mem_cons] at ha
      rcases ha with rfl | rfl | ha
      · exact Or.inl rfl
      · exact Or.inr rfl
      · exact hall a ha
    · rw [I2cTimeoutLoop, if_pos hm, if_neg h0]
      exact heq
  | case3 m w hm =>
    refine ⟨[], by simp, ?_⟩
    rw [I2cTimeoutLoop, if_neg hm]
    rfl

set_option maxRecDepth 100000 in
/-- The nibble above the select, page and operation bits of the address byte. -/
theorem addressByte_nibble :
    ∀ select, select < 256 → ∀ page op : Bool,
      (addressByte select page op >>> 4 = 0b1010 ↔
        (select.testBit 2 = false ∧ select.testBit 4 = false)) := by
  decide

/-! ## The wait loop with a bound on its rounds -/

theorem I2cTimeoutLoop_eq_waitRounds (hw : Hardware σ) (reg : Reg) (mask : Nat) :
    ∀ (n m : Nat) (w : World σ), TIMEOUT + 1 - m ≤ n →
      I2cTimeoutLoop hw reg mask m w = waitRounds hw reg mask n m w := by
  intro n
  induction n with
  | zero =>
    intro m w h
    rw [I2cTimeoutLoop, if_neg (by omega)]
    rfl
  | succ n ih =>
    intro m w h
    rw [I2cTimeoutLoop, waitRounds]
    split_ifs with hm h0
    · rfl
    · have hm1 : (m + 1) % 256 = m + 1 := by
        simp only [TIMEOUT] at hm
        omega
      exact ih _ _ (by rw [hm1]; omega)
    · rfl

/-- The wait of `I2cTimeoutHandle` never needs more than 241 rounds. -/
theorem I2cTimeoutHandle_eq_waitRounds (hw : Hardware σ) (reg : Reg) (mask : Nat)
    (w : World σ) :
    I2cTimeoutHandle hw reg mask w =
      waitRounds hw reg mask 241 0 { w with waits := w.waits + 1 } :=
  I2cTimeoutLoop_eq_waitRounds hw reg mask 241 0 _ (by simp only [TIMEOUT]; omega)

/-! ## Registers that differ in the acknowledge-data bit only -/

theorem get_set_other (r : Regs) (reg reg2 : Reg) (x : Nat) (h : reg2 ≠ reg) :
    (r.set reg x).get reg2 = r.get reg2 := by
  cases reg <;> cases reg2 <;> first | exact absurd rfl h | rfl

theorem get_set_same (r : Regs) (reg : Reg) (x : Nat) : (r.set reg x).get reg = x := by
  cases reg <;> rfl

theorem differ_refl (hdr : DeviceHeader) (r : Regs) : DifferOnlyInACKDT hdr r r :=
  ⟨fun _ _ => rfl, fun _ _ => rfl⟩

/-- The same bit-field store into `I2C1CON` keeps the difference to `ACKDT`. -/
theorem differ_storeBit (hdr : DeviceHeader) (pos : Nat) (v : Bool) (r r2 : Regs)
    (h : DifferOnlyInACKDT hdr r r2) :
    DifferOnlyInACKDT hdr (r.set .I2C1CON (withBit (r.get .I2C1CON) pos v))
      (r2.set .I2C1CON (withBit (r2.get .I2C1CON) pos v)) := by
  constructor
  · intro reg hreg
    rw [get_set_other _ _ _ _ hreg, get_set_other _ _ _ _ hreg]
    exact h.1 reg hreg
  · intro i hi
    show (withBit r.I2C1CON pos v).testBit i = (withBit r2.I2C1CON pos v).testBit i
    rw [testBit_withBit, testBit_withBit, h.2 i hi]

/-- Stores of different values into `ACKDT` make a difference in `ACKDT` only. -/
theorem differ_storeACKDT (hdr : DeviceHeader) (b b2 : Bool) (r : Regs) :
    DifferOnlyInACKDT hdr (r.set .I2C1CON (withBit (r.get .I2C1CON) hdr.ACKDT b))
      (r.set .I2C1CON (withBit (r.get .I2C1CON) hdr.ACKDT b2)) := by
  constructor
  · intro reg hreg
    rw [get_set_other _ _ _ _ hreg, get_set_other _ _ _ _ hreg]
  · intro i hi
    show (withBit r.I2C1CON hdr.ACKDT b).testBit i = (withBit r.I2C1CON hdr.ACKDT b2).testBit i
    rw [testBit_withBit, testBit_withBit, if_neg hi, if_neg hi]

/-- A mask of another bit reads the same from both register files. -/
theorem differ_mask (hdr : DeviceHeader) (pos : Nat) (r r2 : Regs)
    (h : DifferOnlyInACKDT hdr r r2) (hp : pos ≠ hdr.ACKDT) :
    r.get .I2C1CON &&& fieldMask pos = r2.get .I2C1CON &&& fieldMask pos := by
  show r.I2C1CON &&& fieldMask pos = r2.I2C1CON &&& fieldMask pos
  rw [fieldMask, Nat.one_shiftLeft, Nat.and_two_pow, Nat.and_two_pow, h.2 pos hp]

theorem agree_hwStep (hdr : DeviceHeader) (hw : Hardware σ) (R : σ → σ → Prop)
    (hR : ∀ (a : Access) (s s2 : σ) (r r2 : Regs), R s s2 → DifferOnlyInACKDT hdr r r2 →
      R (hw.react a s r).1 (hw.react a s2 r2).1 ∧
      DifferOnlyInACKDT hdr (hw.react a s r).2 (hw.react a s2 r2).2)
    (a : Access) (w w2 : World σ) (h : AgreeButACKDT hdr R w w2) :
    AgreeButACKDT hdr R (hwStep hw a w) (hwStep hw a w2) :=
  ⟨(hR a _ _ _ _ h.1 h.2.1).1, (hR a _ _ _ _ h.1 h.2.1).2, h.2.2⟩

theorem agree_storeBit (hdr : DeviceHeader) (hw : Hardware σ) (R : σ → σ → Prop)
    (hR : ∀ (a : Access) (s s2 : σ) (r r2 : Regs), R s s2 → DifferOnlyInACKDT hdr r r2 →
      R (hw.react a s r).1 (hw.react a s2 r2).1 ∧
      DifferOnlyInACKDT hdr (hw.react a s r).2 (hw.react a s2 r2).2)
    (pos : Nat) (v : Bool) (w w2 : World σ) (h : AgreeButACKDT hdr R w w2) :
    AgreeButACKDT hdr R (storeBit hw .I2C1CON pos v w) (storeBit hw .I2C1CON pos v w2) :=
  agree_hwStep hdr hw R hR (.write .I2C1CON)
    { w with regs := w.regs.set .I2C1CON (withBit (w.regs.get .I2C1CON) pos v) }
    { w2 with regs := w2.regs.set .I2C1CON (withBit (w2.regs.get .I2C1CON) pos v) }
    ⟨h.1, differ_storeBit hdr pos v _ _ h.2.1, h.2.2⟩

theorem agree_storeACKDT (hdr : DeviceHeader) (hw : Hardware σ) (R : σ → σ → Prop)
    (hrefl : ∀ s, R s s)
    (hR : ∀ (a : Access) (s s2 : σ) (r r2 : Regs), R s s2 → DifferOnlyInACKDT hdr r r2 →
      R (hw.react a s r).1 (hw.react a s2 r2).1 ∧
      DifferOnlyInACKDT hdr (hw.react a s r).2 (hw.react a s2 r2).2)
    (b b2 : Bool) (p p2 : Prim) (w : World σ) :
    AgreeButACKDT hdr R (storeBit hw .I2C1CON hdr.ACKDT b (record p w))
      (storeBit hw .I2C1CON hdr.ACKDT b2 (record p2 w)) :=
  agree_hwStep hdr hw R hR (.write .I2C1CON)
    { record p w with
      regs := w.regs.set .I2C1CON (withBit (w.regs.get .I2C1CON) hdr.ACKDT b) }
    { record p2 w with
      regs := w.regs.set .I2C1CON (withBit (w.regs.get .I2C1CON) hdr.ACKDT b2) }
    ⟨hrefl _, differ_storeACKDT hdr b b2 w.regs, rfl, rfl, rfl, rfl⟩

theorem agree_sample (hdr : DeviceHeader) (hw : Hardware σ) (R : σ → σ → Prop)
    (hR : ∀ (a : Access) (s s2 : σ) (r r2 : Regs), R s s2 → DifferOnlyInACKDT hdr r r2 →
      R (hw.react a s r).1 (hw.react a s2 r2).1 ∧
      DifferOnlyInACKDT hdr (hw.react a s r).2 (hw.react a s2 r2).2)
    (pos : Nat) (hp : pos ≠ hdr.ACKDT) (w w2 : World σ) (h : AgreeButACKDT hdr R w w2) :
    (sample hw .I2C1CON (fieldMask pos) w).1 = (sample hw .I2C1CON (fieldMask pos) w2).1 ∧
    AgreeButACKDT hdr R (sample hw .I2C1CON (fieldMask pos) w).2
      (sample hw .I2C1CON (fieldMask pos) w2).2 := by
  have hs := agree_hwStep hdr hw R hR (.read .I2C1CON) w w2 h
  refine ⟨differ_mask hdr pos _ _ hs.2.1 hp, hs.1, hs.2.1, ?_, hs.2.2.2⟩
  show w.samples + 1 = w2.samples + 1
  rw [h.2.2.1]

theorem agree_delay32 (hdr : DeviceHeader) (hw : Hardware σ) (R : σ → σ → Prop)
    (hR : ∀ (a : Access) (s s2 : σ) (r r2 : Regs), R s s2 → DifferOnlyInACKDT hdr r r2 →
      R (hw.react a s r).1 (hw.react a s2 r2).1 ∧
      DifferOnlyInACKDT hdr (hw.react a s r).2 (hw.react a s2 r2).2)
    (w w2 : World σ) (h : AgreeButACKDT hdr R w w2) :
    AgreeButACKDT hdr R (delay32 hw w) (delay32 hw w2) :=
  agree_hwStep hdr hw R hR .delay { w with delays := w.delays + 1 }
    { w2 with delays := w2.delays + 1 }
    ⟨h.1, h.2.1, h.2.2.1, congrArg (· + 1) h.2.2.2.1, h.2.2.2.2⟩

/-- Two waits on another bit of `I2C1CON`, begun in worlds that agree but for
`ACKDT`, run in step. -/
theorem agree_waitRounds (hdr : DeviceHeader) (hw : Hardware σ) (R : σ → σ → Prop)
    (hR : ∀ (a : Access) (s s2 : σ) (r r2 : Regs), R s s2 → DifferOnlyInACKDT hdr r r2 →
      R (hw.react a s r).1 (hw.react a s2 r2).1 ∧
      DifferOnlyInACKDT hdr (hw.react a s r).2 (hw.react a s2 r2).2)
    (pos : Nat) (hp : pos ≠ hdr.ACKDT) :
    ∀ (n m : Nat) (w w2 : World σ), AgreeButACKDT hdr R w w2 →
      AgreeButACKDT hdr R (waitRounds hw .I2C1CON (fieldMask pos) n m w)
        (waitRounds hw .I2C1CON (fieldMask pos) n m w2) := by
  intro n
  induction n with
  | zero => intro m w w2 h; exact h
  | succ n ih =>
    intro m w w2 h
    have hs := agree_sample hdr hw R hR pos hp w w2 h
    simp only [waitRounds]
    by_cases hm : m ≤ TIMEOUT
    · rw [if_pos hm, if_pos hm, ← hs.1]
      by_cases h0 : (sample hw .I2C1CON (fieldMask pos) w).1 = 0
      · rw [if_pos h0, if_pos h0]
        exact hs.2
      · rw [if_neg h0, if_neg h0]
        have hd := agree_delay32 hdr hw R hR _ _ hs.2
        refine ih _ _ _ ⟨hd.1, hd.2.1, hd.2.2.1, hd.2.2.2.1, hd.2.2.2.2.1, ?_⟩
        show max _ (m + 1) = max _ (m + 1)
        rw [hd.2.2.2.2.2]
    · rw [if_neg hm, if_neg hm]
      exact h

/-- The acknowledge sequences with `ACKDT = b` and with `ACKDT = b2`, begun in the
same world, end in worlds that agree but for `ACKDT`. -/
theorem agree_ackSequence (hdr : DeviceHeader) (hw : Hardware σ) (R : σ → σ → Prop)
    (hrefl : ∀ s, R s s)
    (hR : ∀ (a : Access) (s s2 : σ) (r r2 : Regs), R s s2 → DifferOnlyInACKDT hdr r r2 →
      R (hw.react a s r).1 (hw.react a s2 r2).1 ∧
      DifferOnlyInACKDT hdr (hw.react a s r).2 (hw.react a s2 r2).2)
    (hne : hdr.ACKDT ≠ hdr.ACKEN) (b b2 : Bool) (p p2 : Prim) (w : World σ) :
    AgreeButACKDT hdr R
      (I2cTimeoutHandle hw .I2C1CON (fieldMask hdr.ACKEN)
        (storeBit hw .I2C1CON hdr.ACKEN true
          (storeBit hw .I2C1CON hdr.ACKDT b (record p w))))
      (I2cTimeoutHandle hw .I2C1CON (fieldMask hdr.ACKEN)
        (storeBit hw .I2C1CON hdr.ACKEN true
          (storeBit hw .I2C1CON hdr.ACKDT b2 (record p2 w)))) := by
  have h1 := agree_storeBit hdr hw R hR hdr.ACKEN true _ _
    (agree_storeACKDT hdr hw R hrefl hR b b2 p p2 w)
  rw [I2cTimeoutHandle_eq_waitRounds, I2cTimeoutHandle_eq_waitRounds]
  exact agree_waitRounds hdr hw R hR hdr.ACKEN (Ne.symm hne) 241 0 _ _
    ⟨h1.1, h1.2.1, h1.2.2.1, h1.2.2.2.1, congrArg (· + 1) h1.2.2.2.2.1, h1.2.2.2.2.2⟩

/-- Hardware that neither reads nor changes `ACKDT` has registers that do not
depend on it. -/
theorem IgnoresACKDT.registers {hdr : DeviceHeader} {hw : Hardware σ}
    (h : IgnoresACKDT hdr hw) : RegistersIgnoreACKDT hdr hw := by
  refine ⟨fun s s2 => s = s2, fun _ => rfl, ?_⟩
  intro a s s2 r r2 hs hd
  subst hs
  have e : r2 = setACKDT hdr (r2.I2C1CON.testBit hdr.ACKDT) r := by
    obtain ⟨c, st, t, rc, brg, add, tr, ie, fs⟩ := r
    obtain ⟨c2, st2, t2, rc2, brg2, add2, tr2, ie2, fs2⟩ := r2
    have h1 := hd.1
    have e1 := h1 .I2C1STAT (by decide)
    have e2 := h1 .I2C1TRN (by decide)
    have e3 := h1 .I2C1RCV (by decide)
    have e4 := h1 .I2C1BRG (by decide)
    have e5 := h1 .I2C1ADD (by decide)
    have e6 := h1 .TRISB (by decide)
    have e7 := h1 .IEC1 (by decide)
    have e8 := h1 .IFS1 (by decide)
    simp only [Regs.get] at e1 e2 e3 e4 e5 e6 e7 e8
    subst e1 e2 e3 e4 e5 e6 e7 e8
    have ec : c2 = withBit c hdr.ACKDT (c2.testBit hdr.ACKDT) := by
      apply Nat.eq_of_testBit_eq
      intro i
      rw [testBit_withBit]
      split_ifs with hi
      · rw [hi]
      · exact (hd.2 i hi).symm
    simp only [setACKDT, Regs.set]
    rw [← ec]
  rw [e, h a s r _]
  exact ⟨rfl, setACKDT_differ hdr _ _⟩

/-- A bus that hears the acknowledge level has registers that do not depend on
`ACKDT`, although its hidden state does. -/
theorem hearsAck_registers (hdr : DeviceHeader) (n : Nat) :
    RegistersIgnoreACKDT hdr (hearsAck hdr n) := by
  refine ⟨fun s s2 => s.1 = s2.1, fun _ => rfl, ?_⟩
  intro a s s2 r r2 hs hd
  cases a with
  | read reg =>
    simp only [hearsAck, hs]
    refine ⟨trivial, ?_⟩
    split_ifs
    · exact differ_storeBit hdr hdr.ACKEN false r r2 hd
    · exact hd
  | write reg => exact ⟨hs, hd⟩
  | delay => exact ⟨hs, hd⟩

/-- The acknowledge sequence leaves `ACKDT` as stored when the hardware never
changes that bit. -/
theorem ackSequence_bit (hdr : DeviceHeader) (hw : Hardware σ)
    (hkeep : ∀ a s r,
      (hw.react a s r).2.I2C1CON.testBit hdr.ACKDT = r.I2C1CON.testBit hdr.ACKDT)
    (hne : hdr.ACKDT ≠ hdr.ACKEN) (b : Bool) (p : Prim) (w : World σ) :
    (I2cTimeoutHandle hw .I2C1CON (fieldMask hdr.ACKEN)
      (storeBit hw .I2C1CON hdr.ACKEN true
        (storeBit hw .I2C1CON hdr.ACKDT b (record p w)))).regs.I2C1CON.testBit hdr.ACKDT
      = b := by
  have h1 : (storeBit hw .I2C1CON hdr.ACKDT b (record p w)).regs.I2C1CON.testBit hdr.ACKDT
      = b := by
    refine (hkeep _ _ _).trans ?_
    show (withBit _ hdr.ACKDT b).testBit hdr.ACKDT = b
    rw [testBit_withBit, if_pos rfl]
  have h2 : (storeBit hw .I2C1CON hdr.ACKEN true
      (storeBit hw .I2C1CON hdr.ACKDT b (record p w))).regs.I2C1CON.testBit hdr.ACKDT
      = b := by
    refine (hkeep _ _ _).trans ?_
    show (withBit _ hdr.ACKEN true).testBit hdr.ACKDT = b
    rw [testBit_withBit, if_neg hne]
    exact h1
  exact I2cTimeoutLoop_inv hw .I2C1CON (fieldMask hdr.ACKEN)
    (fun _ r => r.I2C1CON.testBit hdr.ACKDT = b)
    (fun _ _ h => (hkeep _ _ _).trans h) (fun _ _ h => (hkeep _ _ _).trans h) 0 _ h2

/-! ## Runs on the test hardware -/

set_option maxRecDepth 1000000 in
/-- On the bus that mirrors the acknowledge level `I2cAck` and `I2cNack`, begun
with all registers zero, end with different `I2C1STAT`. -/
theorem mirrorsAck_run :
    (I2cAck dsPIC33FJ (mirrorsAck dsPIC33FJ) (World.init ())).regs.I2C1STAT = 0 ∧
    (I2cNack dsPIC33FJ (mirrorsAck dsPIC33FJ) (World.init ())).regs.I2C1STAT = 0x8000 := by
  simp only [I2cAck, I2cNack, I2cTimeoutHandle_eq_waitRounds]
  exact ⟨rfl, rfl⟩

set_option maxRecDepth 1000000 in
/-- On the bus that hears the acknowledge level the hidden state after `I2cAck`
holds the level 0 and after `I2cNack` the level 1. -/
theorem hearsAck_run :
    (I2cAck dsPIC33FJ (hearsAck dsPIC33FJ 3) (World.init (0, none))).dev.2 = some false ∧
    (I2cNack dsPIC33FJ (hearsAck dsPIC33FJ 3) (World.init (0, none))).dev.2 = some true := by
  simp only [I2cAck, I2cNack, I2cTimeoutHandle_eq_waitRounds]
  exact ⟨rfl, rfl⟩

/-- On the faithful bus simulator, where the byte is in `I2C1RCV` as soon as
receive is enabled, `I2cReadReg(select, reg)` executed after
`I2cWriteReg(select, reg, value)` returns value, for every select in 0..3, 16-bit
reg and 8-bit value. -/
theorem faithfulSim_round_trip (hdr : DeviceHeader) (hwf : hdr.WellFormed) (w : World Sim)
    (select reg value : Nat) (hs : select < 4) (hr : reg < 65536) (hv : value < 256) :
    (I2cReadReg hdr (faithfulSim hdr) select reg
      (I2cWriteReg hdr (faithfulSim hdr) select reg value w)).1 = value := by
  obtain ⟨s, v, h1⟩ := At_I2cStart_any hdr w
  have hW := At_I2cWriteReg hdr hwf w s v select reg value hs hr h1
  rw [I2cReadReg_sim hdr hwf _ _ _ select reg hs hr hW]
  simp only [Function.update_same]
  exact Nat.mod_eq_of_lt hv

/-! ## Claims -/

/-- C1: for every select in 0..3, page and op, `I2cWriteAddress` loads the
transmit register with `(10<<4) | (select<<2) | (page<<1) | op`, a byte in
`0xA0..0xAF`; select 0, page 0, op 1 gives `0xA1`. -/
theorem C1_write_address_byte (hdr : DeviceHeader) (hw : Hardware σ) (w : World σ)
    (select : Nat) (page op : Bool) (hs : select < 4) :
    I2cWriteAddress hdr hw select page op w =
      I2cTimeoutHandle hw .I2C1STAT (fieldMask hdr.TBF)
        (store hw .I2C1TRN ((10 <<< 4) ||| (select <<< 2) ||| (page.toNat <<< 1) ||| op.toNat)
          (record
            (.writeByte ((10 <<< 4) ||| (select <<< 2) ||| (page.toNat <<< 1) ||| op.toNat))
            w)) ∧
    (I2cWriteAddress hdr hw select page op w).trace =
      w.trace ++
        [.writeByte ((10 <<< 4) ||| (select <<< 2) ||| (page.toNat <<< 1) ||| op.toNat)] ∧
    0xA0 ≤ ((10 <<< 4) ||| (select <<< 2) ||| (page.toNat <<< 1) ||| op.toNat) ∧
    ((10 <<< 4) ||| (select <<< 2) ||| (page.toNat <<< 1) ||| op.toNat) ≤ 0xAF ∧
    addressByte 0 false true = 0xA1 := by
  refine ⟨?_, ?_, ?_, ?_, rfl⟩
  · rw [← addressByte_eq select page op hs]; rfl
  · rw [← addressByte_eq select page op hs]
    exact (I2cWriteAddress_runs hdr hw select page op w).trace_eq
  · interval_cases select <;> cases page <;> cases op <;> decide
  · interval_cases select <;> cases page <;> cases op <;> decide

/-- Witness of C1 at select 2, page 0, op 1 on a dead peripheral. -/
theorem C1_write_address_byte_witness :
    (2 < 4) ∧
    I2cWriteAddress dsPIC33FJ unresponsive 2 false true (World.init ()) =
      I2cTimeoutHandle unresponsive .I2C1STAT (fieldMask dsPIC33FJ.TBF)
        (store unresponsive .I2C1TRN
          ((10 <<< 4) ||| (2 <<< 2) ||| (false.toNat <<< 1) ||| true.toNat)
          (record
            (.writeByte ((10 <<< 4) ||| (2 <<< 2) ||| (false.toNat <<< 1) ||| true.toNat))
            (World.init ()))) ∧
    (I2cWriteAddress dsPIC33FJ unresponsive 2 false true (World.init ())).trace =
      (World.init ()).trace ++
        [.writeByte ((10 <<< 4) ||| (2 <<< 2) ||| (false.toNat <<< 1) ||| true.toNat)] ∧
    0xA0 ≤ ((10 <<< 4) ||| (2 <<< 2) ||| (false.toNat <<< 1) ||| true.toNat) ∧
    ((10 <<< 4) ||| (2 <<< 2) ||| (false.toNat <<< 1) ||| true.toNat) ≤ 0xAF ∧
    addressByte 0 false true = 0xA1 :=
  ⟨by decide,
   C1_write_address_byte dsPIC33FJ unresponsive (World.init ()) 2 false true (by decide)⟩

/-- C2: for every select in 0..3 and 16-bit reg, `I2cWriteReg(select, reg, data)`
invokes exactly start, writeByte(0xA0 | select<<2), idle, writeByte(reg>>8), idle,
writeByte(reg mod 256), idle, writeByte(data), idle, stop, whatever the hardware
does; the address byte has page bit and operation bit 0. -/
theorem C2_write_reg_sequence (hdr : DeviceHeader) (hw : Hardware σ) (w : World σ)
    (select reg data : Nat) (hs : select < 4) (hr : reg < 65536) :
    (I2cWriteReg hdr hw select reg data w).trace =
      w.trace ++
        [.start, .writeByte (0xA0 ||| select <<< 2), .idle, .writeByte (reg >>> 8), .idle,
         .writeByte (reg % 256), .idle, .writeByte data, .idle, .stop] ∧
    (0xA0 ||| select <<< 2).testBit 1 = false ∧
    (0xA0 ||| select <<< 2).testBit 0 = false := by
  refine ⟨?_, ?_, ?_⟩
  · rw [(I2cWriteReg_runs hdr hw select reg data w).trace_eq, addressByte_write select hs,
      shiftRight8_lt reg hr, Nat.mod_mod]
  · interval_cases select <;> decide
  · interval_cases select <;> decide

/-- Witness of C2: select 0, reg 0x0010, data 0x42 on a dead peripheral. -/
theorem C2_write_reg_sequence_witness :
    (0 < 4) ∧ (0x0010 < 65536) ∧
    (I2cWriteReg dsPIC33FJ unresponsive 0 0x0010 0x42 (World.init ())).trace =
      (World.init ()).trace ++
        [.start, .writeByte (0xA0 ||| 0 <<< 2), .idle, .writeByte (0x0010 >>> 8), .idle,
         .writeByte (0x0010 % 256), .idle, .writeByte 0x42, .idle, .stop] ∧
    (0xA0 ||| 0 <<< 2).testBit 1 = false ∧
    (0xA0 ||| 0 <<< 2).testBit 0 = false :=
  ⟨by decide, by decide,
   C2_write_reg_sequence dsPIC33FJ unresponsive (World.init ()) 0 0x0010 0x42
     (by decide) (by decide)⟩

/-- C3: for every select in 0..3 and 16-bit reg, `I2cReadReg(select, reg)` invokes
exactly start, writeByte(0xA0 | select<<2), idle, writeByte(reg>>8), idle,
writeByte(reg mod 256), idle, restart, writeByte(0xA1 | select<<2), idle,
readEnable, nack, stop; the value returned is the receive register as loaded
after `I2cStop` has returned, as a `uint8_t`; the two address bytes differ only
in bit 0. -/
theorem C3_read_reg_sequence (hdr : DeviceHeader) (hw : Hardware σ) (w : World σ)
    (select reg : Nat) (hs : select < 4) (hr : reg < 65536) :
    (∃ w12 : World σ,
      (I2cStop hdr hw w12).trace =
        w.trace ++
          [.start, .writeByte (0xA0 ||| select <<< 2), .idle, .writeByte (reg >>> 8), .idle,
           .writeByte (reg % 256), .idle, .restart, .writeByte (0xA1 ||| select <<< 2),
           .idle, .readEnable, .nack, .stop] ∧
      (I2cReadReg hdr hw select reg w).1 =
        (load hw .I2C1RCV (I2cStop hdr hw w12)).1 % 256 ∧
      (I2cReadReg hdr hw select reg w).2 = (load hw .I2C1RCV (I2cStop hdr hw w12)).2 ∧
      ((load hw .I2C1RCV (I2cStop hdr hw w12)).1 < 256 →
        (I2cReadReg hdr hw select reg w).1 = (load hw .I2C1RCV (I2cStop hdr hw w12)).1)) ∧
    (I2cReadReg hdr hw select reg w).1 = (I2cReadReg hdr hw select reg w).2.regs.I2C1RCV % 256 ∧
    (I2cReadReg hdr hw select reg w).2.trace =
      w.trace ++
        [.start, .writeByte (0xA0 ||| select <<< 2), .idle, .writeByte (reg >>> 8), .idle,
         .writeByte (reg % 256), .idle, .restart, .writeByte (0xA1 ||| select <<< 2),
         .idle, .readEnable, .nack, .stop] ∧
    (0xA0 ||| select <<< 2) ^^^ (0xA1 ||| select <<< 2) = 1 := by
  obtain ⟨w12, h12, heq⟩ := I2cReadReg_runs hdr hw select reg w
  have h13 := (h12.trans (I2cStop_runs hdr hw w12)).trace_eq
  rw [addressByte_write select hs, addressByte_read select hs, shiftRight8_lt reg hr,
    Nat.mod_mod] at h13
  refine ⟨⟨w12, h13, ?_, ?_, ?_⟩, ?_, ?_, ?_⟩
  · rw [heq]
  · rw [heq]
  · intro hlt
    rw [heq]
    exact Nat.mod_eq_of_lt hlt
  · rw [heq]; rfl
  · rw [heq]; exact h13
  · interval_cases select <;> decide

/-- Witness of C3: select 0, reg 0x0010 on a dead peripheral. -/
theorem C3_read_reg_sequence_witness :
    (0 < 4) ∧ (0x0010 < 65536) ∧
    (I2cReadReg dsPIC33FJ unresponsive 0 0x0010 (World.init ())).2.trace =
      (World.init ()).trace ++
        [.start, .writeByte (0xA0 ||| 0 <<< 2), .idle, .writeByte (0x0010 >>> 8), .idle,
         .writeByte (0x0010 % 256), .idle, .restart, .writeByte (0xA1 ||| 0 <<< 2),
         .idle, .readEnable, .nack, .stop] :=
  ⟨by decide, by decide,
   (C3_read_reg_sequence dsPIC33FJ unresponsive (World.init ()) 0 0x0010
     (by decide) (by decide)).2.2.1⟩

/-- C4: with the transmit-status bit stuck on a dead peripheral the masked bits
never become zero, and `I2cTimeoutHandle` returns after 241 samples (the loop
runs for `m = 0 .. 240`), not after 240. -/
theorem C4_stuck_wait_samples :
    (I2cTimeoutHandle unresponsive .I2C1STAT (fieldMask dsPIC33FJ.TRSTAT) stuckBus).samples
      = 241 := by
  have h := (I2cTimeoutHandle_expires unresponsive .I2C1STAT (fieldMask dsPIC33FJ.TRSTAT)
    stuckBus (fun k _ _ => by
      rw [sampleNo, pollValue_unresponsive]
      decide)).1
  simpa [stuckBus, TIMEOUT] using h

/-- C5: for 1 ≤ N ≤ 240, if the masked bits are non-zero at samples 1..N-1 and
zero at sample N, `I2cTimeoutHandle` returns after exactly N samples. -/
theorem C5_wait_returns_at_first_clear (hw : Hardware σ) (reg : Reg) (mask : Nat)
    (w : World σ) (N : Nat) (h1 : 1 ≤ N) (hN : N ≤ 240)
    (hnz : ∀ k, 1 ≤ k → k < N → sampleNo hw reg mask w k ≠ 0)
    (hz : sampleNo hw reg mask w N = 0) :
    (I2cTimeoutHandle hw reg mask w).samples = w.samples + N :=
  (I2cTimeoutHandle_clears hw reg mask w N h1 (by simp only [TIMEOUT]; omega) hnz hz).1

/-- Witness of C5: a peripheral that clears the status at the third load. -/
theorem C5_wait_returns_at_first_clear_witness :
    (1 ≤ 3) ∧ (3 ≤ 240) ∧
    (∀ k, 1 ≤ k → k < 3 →
      sampleNo (clearsAt 3) .I2C1STAT (fieldMask dsPIC33FJ.TRSTAT) (World.init 0) k ≠ 0) ∧
    sampleNo (clearsAt 3) .I2C1STAT (fieldMask dsPIC33FJ.TRSTAT) (World.init 0) 3 = 0 ∧
    (I2cTimeoutHandle (clearsAt 3) .I2C1STAT (fieldMask dsPIC33FJ.TRSTAT)
      (World.init 0)).samples = (World.init 0).samples + 3 :=
  have hnz : ∀ k, 1 ≤ k → k < 3 →
      sampleNo (clearsAt 3) .I2C1STAT (fieldMask dsPIC33FJ.TRSTAT) (World.init 0) k ≠ 0 := by
    intro k hk1 hk3
    interval_cases k <;> decide
  ⟨by decide, by decide, hnz, by decide,
   C5_wait_returns_at_first_clear (clearsAt 3) .I2C1STAT (fieldMask dsPIC33FJ.TRSTAT)
     (World.init 0) 3 (by decide) (by decide) hnz (by decide)⟩

/-- C6: a timed-out phase never aborts or alters a transaction.  For fixed
arguments and any two hardware behaviours (any hidden state, any registers,
waits that succeed or time out) `I2cWriteReg` invokes the same ten primitives with
the same bytes and `I2cReadReg` the same thirteen; each starts one wait per
waiting primitive (10 and 12) and ends with stop. -/
theorem C6_timeouts_do_not_alter_sequence {τ : Type} (hdr : DeviceHeader)
    (hw1 : Hardware σ) (hw2 : Hardware τ) (w1 : World σ) (w2 : World τ)
    (select reg data : Nat) :
    (∃ T : List Prim,
      (I2cWriteReg hdr hw1 select reg data w1).trace = w1.trace ++ T ∧
      (I2cWriteReg hdr hw2 select reg data w2).trace = w2.trace ++ T ∧
      T = [.start, .writeByte (addressByte select false false), .idle,
           .writeByte ((reg >>> 8) % 256), .idle, .writeByte ((reg % 256) % 256), .idle,
           .writeByte data, .idle, .stop] ∧
      T.getLast? = some .stop ∧
      (I2cWriteReg hdr hw1 select reg data w1).waits = w1.waits + 10 ∧
      (I2cWriteReg hdr hw2 select reg data w2).waits = w2.waits + 10) ∧
    (∃ T : List Prim,
      (I2cReadReg hdr hw1 select reg w1).2.trace = w1.trace ++ T ∧
      (I2cReadReg hdr hw2 select reg w2).2.trace = w2.trace ++ T ∧
      T = [.start, .writeByte (addressByte select false false), .idle,
           .writeByte ((reg >>> 8) % 256), .idle, .writeByte ((reg % 256) % 256), .idle,
           .restart, .writeByte (addressByte select false true), .idle,
           .readEnable, .nack, .stop] ∧
      T.getLast? = some .stop ∧
      (I2cReadReg hdr hw1 select reg w1).2.waits = w1.waits + 12 ∧
      (I2cReadReg hdr hw2 select reg w2).2.waits = w2.waits + 12) :=
  ⟨⟨_, (I2cWriteReg_runs hdr hw1 select reg data w1).trace_eq,
      (I2cWriteReg_runs hdr hw2 select reg data w2).trace_eq, rfl, rfl,
      (I2cWriteReg_runs hdr hw1 select reg data w1).waits_eq,
      (I2cWriteReg_runs hdr hw2 select reg data w2).waits_eq⟩,
   ⟨_, (I2cReadReg_snd_runs hdr hw1 select reg w1).trace_eq,
      (I2cReadReg_snd_runs hdr hw2 select reg w2).trace_eq, rfl, rfl,
      (I2cReadReg_snd_runs hdr hw1 select reg w1).waits_eq,
      (I2cReadReg_snd_runs hdr hw2 select reg w2).waits_eq⟩⟩

/-- C7: for every hardware behaviour and all arguments `I2cWriteReg` and
`I2cReadReg` return (they are total functions); the value computed by `m++` in
`I2cTimeoutHandle` never exceeds 241, which is below 256, so the `uint8_t`
counter never wraps; `I2cWriteReg` starts exactly 10 waits and `I2cReadReg`
exactly 12, so they take at most 2410 and 2892 status samples. -/
theorem C7_transactions_bounded (hdr : DeviceHeader) (hw : Hardware σ) (w : World σ)
    (select reg data : Nat) :
    ((I2cWriteReg hdr hw select reg data w).waits = w.waits + 10 ∧
     (I2cWriteReg hdr hw select reg data w).samples ≤ w.samples + 2410 ∧
     (I2cWriteReg hdr hw select reg data w).peak ≤ max w.peak 241) ∧
    ((I2cReadReg hdr hw select reg w).2.waits = w.waits + 12 ∧
     (I2cReadReg hdr hw select reg w).2.samples ≤ w.samples + 2892 ∧
     (I2cReadReg hdr hw select reg w).2.peak ≤ max w.peak 241) ∧
    (∀ (r : Reg) (mask : Nat),
      (I2cTimeoutHandle hw r mask w).peak ≤ max w.peak 241 ∧
      (I2cTimeoutHandle hw r mask w).samples ≤ w.samples + 241) ∧
    10 * 241 = 2410 ∧ 12 * 241 = 2892 ∧ 241 < 256 := by
  have hW := I2cWriteReg_runs hdr hw select reg data w
  have hR := I2cReadReg_snd_runs hdr hw select reg w
  refine ⟨⟨hW.waits_eq, ?_, ?_⟩, ⟨hR.waits_eq, ?_, ?_⟩, ?_, by decide, by decide, by decide⟩
  · simpa [TIMEOUT] using hW.samples_le
  · simpa [TIMEOUT] using hW.peak_le
  · simpa [TIMEOUT] using hR.samples_le
  · simpa [TIMEOUT] using hR.peak_le
  · intro r mask
    have hT := I2cTimeoutHandle_runs hw r mask w
    exact ⟨by simpa [TIMEOUT] using hT.peak_le, by simpa [TIMEOUT] using hT.samples_le⟩

/-- C8: for every 16-bit reg the register-address bytes that `I2cWriteReg` and
`I2cReadReg` put on the wire are hi = (uint8_t)(reg >> 8) and then
lo = (uint8_t)(reg % 256); lo is `reg & 0xFF` and 256*hi + lo = reg; 0xFFFF gives
0xFF, 0xFF and 0x0100 gives 0x01, 0x00. -/
theorem C8_register_address_bytes (hdr : DeviceHeader) (hw : Hardware σ) (w : World σ)
    (select reg data : Nat) (hr : reg < 65536) :
    ∃ hi lo : Nat,
      hi = (reg >>> 8) % 256 ∧ lo = (reg % 256) % 256 ∧
      (I2cWriteReg hdr hw select reg data w).trace =
        w.trace ++
          [.start, .writeByte (addressByte select false false), .idle,
           .writeByte hi, .idle, .writeByte lo, .idle, .writeByte data, .idle, .stop] ∧
      (I2cReadReg hdr hw select reg w).2.trace =
        w.trace ++
          [.start, .writeByte (addressByte select false false), .idle,
           .writeByte hi, .idle, .writeByte lo, .idle,
           .restart, .writeByte (addressByte select false true), .idle,
           .readEnable, .nack, .stop] ∧
      lo = reg &&& 0xFF ∧ 256 * hi + lo = reg ∧ hi < 256 ∧ lo < 256 ∧
      ((0xFFFF >>> 8) % 256 = 0xFF ∧ (0xFFFF % 256) % 256 = 0xFF) ∧
      ((0x0100 >>> 8) % 256 = 0x01 ∧ (0x0100 % 256) % 256 = 0x00) := by
  refine ⟨(reg >>> 8) % 256, (reg % 256) % 256, rfl, rfl,
    (I2cWriteReg_runs hdr hw select reg data w).trace_eq,
    (I2cReadReg_snd_runs hdr hw select reg w).trace_eq, ?_, ?_, ?_, ?_,
    ⟨by decide, by decide⟩, ⟨by decide, by decide⟩⟩
  · rw [Nat.mod_mod]
    exact (Nat.and_pow_two_sub_one_eq_mod reg 8).symm
  · rw [shiftRight8_lt reg hr, Nat.mod_mod, Nat.shiftRight_eq_div_pow]
    omega
  · exact Nat.mod_lt _ (by decide)
  · exact Nat.mod_lt _ (by decide)

/-- Witness of C8 at reg 0xFFFF on a dead peripheral. -/
theorem C8_register_address_bytes_witness :
    (0xFFFF < 65536) ∧
    ∃ hi lo : Nat,
      hi = (0xFFFF >>> 8) % 256 ∧ lo = (0xFFFF % 256) % 256 ∧
      (I2cWriteReg dsPIC33FJ unresponsive 0 0xFFFF 0x42 (World.init ())).trace =
        (World.init ()).trace ++
          [.start, .writeByte (addressByte 0 false false), .idle,
           .writeByte hi, .idle, .writeByte lo, .idle, .writeByte 0x42, .idle, .stop] ∧
      (I2cReadReg dsPIC33FJ unresponsive 0 0xFFFF (World.init ())).2.trace =
        (World.init ()).trace ++
          [.start, .writeByte (addressByte 0 false false), .idle,
           .writeByte hi, .idle, .writeByte lo, .idle,
           .restart, .writeByte (addressByte 0 false true), .idle,
           .readEnable, .nack, .stop] ∧
      lo = 0xFFFF &&& 0xFF ∧ 256 * hi + lo = 0xFFFF ∧ hi < 256 ∧ lo < 256 ∧
      ((0xFFFF >>> 8) % 256 = 0xFF ∧ (0xFFFF % 256) % 256 = 0xFF) ∧
      ((0x0100 >>> 8) % 256 = 0x01 ∧ (0x0100 % 256) % 256 = 0x00) :=
  ⟨by decide,
   C8_register_address_bytes dsPIC33FJ unresponsive (World.init ()) 0 0xFFFF 0x42
     (by decide)⟩

/-- C10, as stated, fails: the phase sequence of `I2cWriteReg(0, 0x0010, 0x42)` is
START, ADDRESS, DATA, DATA, DATA, STOP, with no ACK or NACK phase, and that of
`I2cReadReg(0, 0x0010)` is START, ADDRESS, DATA, DATA, RESTART, ADDRESS, DATA,
NACK, STOP, with DATA before the RESTART; neither matches
START, ADDRESS, (RESTART, ADDRESS)?, DATA*, (ACK|NACK), STOP. -/
theorem C10_stated_pattern_fails :
    matchesStateMachine (phases (issued (World.init ())
      (I2cWriteReg dsPIC33FJ unresponsive 0 0x0010 0x42 (World.init ())))) = false ∧
    matchesStateMachine (phases (issued (World.init ())
      (I2cReadReg dsPIC33FJ unresponsive 0 0x0010 (World.init ())).2)) = false := by
  rw [(I2cWriteReg_runs dsPIC33FJ unresponsive 0 0x0010 0x42 (World.init ())).issued_eq,
    (I2cReadReg_snd_runs dsPIC33FJ unresponsive 0 0x0010 (World.init ())).issued_eq]
  exact ⟨rfl, rfl⟩

/-- C10, amended: for all arguments, hardware behaviours and starting states the
phase sequence of `I2cWriteReg` is START, ADDRESS, DATA, DATA, DATA, STOP and that
of `I2cReadReg` is START, ADDRESS, DATA, DATA, RESTART, ADDRESS, DATA, NACK, STOP.
Both match START, ADDRESS, DATA*, (RESTART, ADDRESS, DATA*)?, (ACK|NACK)?, STOP:
entry is START, exit is STOP, and every ADDRESS phase is entered from START or
from RESTART. -/
theorem C10_phase_sequences (hdr : DeviceHeader) (hw : Hardware σ) (w : World σ)
    (select reg data : Nat) :
    (phases (issued w (I2cWriteReg hdr hw select reg data w)) =
        [.START, .ADDRESS, .DATA, .DATA, .DATA, .STOP] ∧
      matchesDriverMachine (phases (issued w (I2cWriteReg hdr hw select reg data w))) = true ∧
      (phases (issued w (I2cWriteReg hdr hw select reg data w))).head? = some .START ∧
      (phases (issued w (I2cWriteReg hdr hw select reg data w))).getLast? = some .STOP ∧
      addressEntered none (phases (issued w (I2cWriteReg hdr hw select reg data w))) = true) ∧
    (phases (issued w (I2cReadReg hdr hw select reg w).2) =
        [.START, .ADDRESS, .DATA, .DATA, .RESTART, .ADDRESS, .DATA, .NACK, .STOP] ∧
      matchesDriverMachine (phases (issued w (I2cReadReg hdr hw select reg w).2)) = true ∧
      (phases (issued w (I2cReadReg hdr hw select reg w).2)).head? = some .START ∧
      (phases (issued w (I2cReadReg hdr hw select reg w).2)).getLast? = some .STOP ∧
      addressEntered none (phases (issued w (I2cReadReg hdr hw select reg w).2)) = true) := by
  rw [(I2cWriteReg_runs hdr hw select reg data w).issued_eq,
    (I2cReadReg_snd_runs hdr hw select reg w).issued_eq, phases_write, phases_read]
  exact ⟨⟨rfl, rfl, rfl, rfl, rfl⟩, ⟨rfl, rfl, rfl, rfl, rfl⟩⟩

/-- C11, as stated, fails: in `I2cReadReg(0, 0x0010)` the readEnable is not
followed by an idle wait; the next primitive is nack. -/
theorem C11_read_enable_not_idled :
    byteOpsIdle (issued (World.init ())
      (I2cReadReg dsPIC33FJ unresponsive 0 0x0010 (World.init ())).2) = false ∧
    (issued (World.init ())
      (I2cReadReg dsPIC33FJ unresponsive 0 0x0010 (World.init ())).2).drop 10 =
      [.readEnable, .nack, .stop] := by
  rw [(I2cReadReg_snd_runs dsPIC33FJ unresponsive 0 0x0010 (World.init ())).issued_eq]
  exact ⟨by decide, rfl⟩

/-- C11, amended: in every `I2cWriteReg` and `I2cReadReg` transaction every
writeByte, the address bytes included, has an idle wait as the very next
primitive; `I2cWriteReg` has no other byte-level operation; the one readEnable of
`I2cReadReg` is followed directly by nack and stop. -/
theorem C11_writes_idled (hdr : DeviceHeader) (hw : Hardware σ) (w : World σ)
    (select reg data : Nat) :
    byteOpsIdle (issued w (I2cWriteReg hdr hw select reg data w)) = true ∧
    writesIdle (issued w (I2cWriteReg hdr hw select reg data w)) = true ∧
    writesIdle (issued w (I2cReadReg hdr hw select reg w).2) = true ∧
    (issued w (I2cReadReg hdr hw select reg w).2).count .readEnable = 1 ∧
    (issued w (I2cReadReg hdr hw select reg w).2).drop 10 = [.readEnable, .nack, .stop] := by
  rw [(I2cWriteReg_runs hdr hw select reg data w).issued_eq,
    (I2cReadReg_snd_runs hdr hw select reg w).issued_eq]
  refine ⟨?_, ?_, ?_, ?_, rfl⟩
  · simp [byteOpsIdle]
  · simp [writesIdle]
  · simp [writesIdle]
  · simp

/-- C12: for select in 0..3, page and op, the byte `b` that `I2cWriteAddress`
writes decodes: `b>>4 = 10`, `(b>>2)&3 = select`, `(b>>1)&1 = page`, `b&1 = op`;
so no other valid select, page and op give the same byte. -/
theorem C12_address_decodable (hdr : DeviceHeader) (hw : Hardware σ) (w : World σ)
    (select : Nat) (page op : Bool) (hs : select < 4) :
    ∃ b : Nat,
      (I2cWriteAddress hdr hw select page op w).trace = w.trace ++ [.writeByte b] ∧
      b = addressByte select page op ∧
      b >>> 4 = 10 ∧ (b >>> 2) &&& 3 = select ∧ (b >>> 1) &&& 1 = page.toNat ∧
      b &&& 1 = op.toNat ∧
      (∀ (select2 : Nat) (page2 op2 : Bool), select2 < 4 →
        addressByte select2 page2 op2 = b → select2 = select ∧ page2 = page ∧ op2 = op) := by
  refine ⟨addressByte select page op,
    (I2cWriteAddress_runs hdr hw select page op w).trace_eq, rfl, ?_, ?_, ?_, ?_, ?_⟩
  · interval_cases select <;> cases page <;> cases op <;> rfl
  · interval_cases select <;> cases page <;> cases op <;> rfl
  · interval_cases select <;> cases page <;> cases op <;> rfl
  · interval_cases select <;> cases page <;> cases op <;> rfl
  · intro select2 page2 op2 hs2 heq
    interval_cases select <;> interval_cases select2 <;> cases page <;> cases page2 <;>
      cases op <;> cases op2 <;> first | exact ⟨rfl, rfl, rfl⟩ | exact absurd heq (by decide)

/-- Witness of C12 at select 3, page 1, op 0 on a dead peripheral. -/
theorem C12_address_decodable_witness :
    (3 < 4) ∧
    ∃ b : Nat,
      (I2cWriteAddress dsPIC33FJ unresponsive 3 true false (World.init ())).trace =
        (World.init ()).trace ++ [.writeByte b] ∧
      b = addressByte 3 true false ∧
      b >>> 4 = 10 ∧ (b >>> 2) &&& 3 = 3 ∧ (b >>> 1) &&& 1 = true.toNat ∧
      b &&& 1 = false.toNat ∧
      (∀ (select2 : Nat) (page2 op2 : Bool), select2 < 4 →
        addressByte select2 page2 op2 = b → select2 = 3 ∧ page2 = true ∧ op2 = false) :=
  ⟨by decide,
   C12_address_decodable dsPIC33FJ unresponsive (World.init ()) 3 true false (by decide)⟩

/-- C13: the baud constant 363 that `I2cInit` stores into the baud-rate register
`I2C1BRG` equals 40000000/100000 - 40000000/1111111 - 1 in truncating integer
division, that is 400 - 36 - 1. -/
theorem C13_baud_constant (hdr : DeviceHeader) (hw : Hardware σ) (w : World σ)
    (v : World Unit) :
    I2cInit hdr hw w =
      storeBit hw .IFS1 hdr.MI2C1IF false
        (storeBit hw .IEC1 hdr.MI2C1IE false
          (storeBit hw .TRISB hdr.TRISB8 true
            (storeBit hw .TRISB hdr.TRISB9 true
              (storeBit hw .I2C1CON hdr.I2CEN true
                (storeBit hw .I2C1CON hdr.SCLREL true
                  (storeBit hw .I2C1CON hdr.A10M false
                    (storeBit hw .I2C1CON hdr.DISSLW true
                      (storeBit hw .I2C1CON hdr.I2CEN false
                        (store hw .I2C1ADD FFRAM_ADDRESS
                          (store hw .I2C1BRG 363 w)))))))))) ∧
    (store hw .I2C1BRG 363 w).regs =
      (hw.react (.write .I2C1BRG) w.dev { w.regs with I2C1BRG := 363 }).2 ∧
    (I2cInit hdr unresponsive v).regs.I2C1BRG = 363 ∧
    FFRAM_BAUD = 363 ∧
    FFRAM_BAUD = 40000000 / 100000 - 40000000 / 1111111 - 1 ∧
    40000000 / 100000 = 400 ∧ 40000000 / 1111111 = 36 ∧ 400 - 36 - 1 = 363 :=
  ⟨rfl, rfl, rfl, rfl, by decide, by decide, by decide, by decide⟩

/-- C14, as stated, fails in its last part: on a bus that shows the acknowledge
level in bit 15 of `I2C1STAT`, from the same starting state and with the same
hardware, `I2cAck` ends with `I2C1STAT = 0` and `I2cNack` with
`I2C1STAT = 0x8000`, a difference in a field other than `ACKDT`. -/
theorem C14_mirrored_ack_differs :
    (I2cAck dsPIC33FJ (mirrorsAck dsPIC33FJ) (World.init ())).regs.I2C1STAT = 0 ∧
    (I2cNack dsPIC33FJ (mirrorsAck dsPIC33FJ) (World.init ())).regs.I2C1STAT = 0x8000 ∧
    ¬ DifferOnlyInACKDT dsPIC33FJ
      (I2cAck dsPIC33FJ (mirrorsAck dsPIC33FJ) (World.init ())).regs
      (I2cNack dsPIC33FJ (mirrorsAck dsPIC33FJ) (World.init ())).regs := by
  refine ⟨mirrorsAck_run.1, mirrorsAck_run.2, fun h => ?_⟩
  have e := h.1 .I2C1STAT (by decide)
  simp only [Regs.get] at e
  rw [mirrorsAck_run.1, mirrorsAck_run.2] at e
  exact absurd e (by decide)

/-- C14, amended: `I2cAck` and `I2cNack` each store the acknowledge-data bit (0 for
ack, 1 for nack) and then the acknowledge-enable bit (1), each store changing that
one bit of `I2C1CON`, and then wait on `ACKEN`; on a dead peripheral the registers
end as the two stores left them.  From the same starting state, on hardware whose
effect on the registers does not depend on `ACKDT` (its hidden state may), the
two leave registers that differ in `ACKDT` only and the same counts; `ACKDT` ends
as stored when the hardware never changes that bit, and the hidden states are
equal when the hardware does not read it either. -/
theorem C14_ack_nack_frame (hdr : DeviceHeader) (hw : Hardware σ) (w : World σ)
    (v : World Unit) (hne : hdr.ACKDT ≠ hdr.ACKEN) (hreg : RegistersIgnoreACKDT hdr hw) :
    (I2cAck hdr hw w =
        I2cTimeoutHandle hw .I2C1CON (fieldMask hdr.ACKEN)
          (storeBit hw .I2C1CON hdr.ACKEN true
            (storeBit hw .I2C1CON hdr.ACKDT false (record .ack w))) ∧
      I2cNack hdr hw w =
        I2cTimeoutHandle hw .I2C1CON (fieldMask hdr.ACKEN)
          (storeBit hw .I2C1CON hdr.ACKEN true
            (storeBit hw .I2C1CON hdr.ACKDT true (record .nack w)))) ∧
    (∀ (c pos i : Nat) (b : Bool),
      (withBit c pos b).testBit i = if i = pos then b else c.testBit i) ∧
    ((I2cAck hdr unresponsive v).regs =
        v.regs.set .I2C1CON (withBit (withBit v.regs.I2C1CON hdr.ACKDT false) hdr.ACKEN true) ∧
      (I2cNack hdr unresponsive v).regs =
        v.regs.set .I2C1CON (withBit (withBit v.regs.I2C1CON hdr.ACKDT true) hdr.ACKEN true)) ∧
    DifferOnlyInACKDT hdr (I2cAck hdr hw w).regs (I2cNack hdr hw w).regs ∧
    (I2cNack hdr hw w).samples = (I2cAck hdr hw w).samples ∧
    (I2cNack hdr hw w).delays = (I2cAck hdr hw w).delays ∧
    (I2cNack hdr hw w).waits = (I2cAck hdr hw w).waits ∧
    (I2cNack hdr hw w).peak = (I2cAck hdr hw w).peak ∧
    ((∀ a s r,
        (hw.react a s r).2.I2C1CON.testBit hdr.ACKDT = r.I2C1CON.testBit hdr.ACKDT) →
      (I2cAck hdr hw w).regs.I2C1CON.testBit hdr.ACKDT = false ∧
      (I2cNack hdr hw w).regs.I2C1CON.testBit hdr.ACKDT = true) ∧
    (IgnoresACKDT hdr hw → (I2cNack hdr hw w).dev = (I2cAck hdr hw w).dev) := by
  obtain ⟨R, hrefl, hR⟩ := hreg
  have hag : AgreeButACKDT hdr R (I2cAck hdr hw w) (I2cNack hdr hw w) :=
    agree_ackSequence hdr hw R hrefl hR hne false true .ack .nack w
  refine ⟨⟨rfl, rfl⟩, fun c pos i b => testBit_withBit c pos b i, ⟨?_, ?_⟩, hag.2.1,
    hag.2.2.1.symm, hag.2.2.2.1.symm, hag.2.2.2.2.1.symm, hag.2.2.2.2.2.symm, ?_, ?_⟩
  · exact unresponsive_wait_regs _ _ _
  · exact unresponsive_wait_regs _ _ _
  · intro hkeep
    exact ⟨ackSequence_bit hdr hw hkeep hne false .ack w,
      ackSequence_bit hdr hw hkeep hne true .nack w⟩
  · intro hblind
    have hN : I2cNack hdr hw w =
        World.withACKDT hdr true (w.trace ++ [.nack]) (I2cAck hdr hw w) :=
      ackSequence_withACKDT hdr hw hblind hne false true .ack .nack w
    rw [hN]
    rfl

/-- Witness of C14: the dsPIC33FJ layout and a bus that hears the acknowledge
level and completes the acknowledge sequence at the third load; its hidden state
differs after `I2cAck` and `I2cNack`, its registers in `ACKDT` only. -/
theorem C14_ack_nack_frame_witness :
    dsPIC33FJ.ACKDT ≠ dsPIC33FJ.ACKEN ∧
    RegistersIgnoreACKDT dsPIC33FJ (hearsAck dsPIC33FJ 3) ∧
    DifferOnlyInACKDT dsPIC33FJ
      (I2cAck dsPIC33FJ (hearsAck dsPIC33FJ 3) (World.init (0, none))).regs
      (I2cNack dsPIC33FJ (hearsAck dsPIC33FJ 3) (World.init (0, none))).regs ∧
    (I2cNack dsPIC33FJ (hearsAck dsPIC33FJ 3) (World.init (0, none))).samples =
      (I2cAck dsPIC33FJ (hearsAck dsPIC33FJ 3) (World.init (0, none))).samples ∧
    (I2cAck dsPIC33FJ (hearsAck dsPIC33FJ 3) (World.init (0, none))).dev.2 = some false ∧
    (I2cNack dsPIC33FJ (hearsAck dsPIC33FJ 3) (World.init (0, none))).dev.2 = some true :=
  have hne : dsPIC33FJ.ACKDT ≠ dsPIC33FJ.ACKEN := by decide
  have hreg : RegistersIgnoreACKDT dsPIC33FJ (hearsAck dsPIC33FJ 3) :=
    hearsAck_registers dsPIC33FJ 3
  have h := C14_ack_nack_frame dsPIC33FJ (hearsAck dsPIC33FJ 3) (World.init (0, none))
    (World.init ()) hne hreg
  ⟨hne, hreg, h.2.2.2.1, h.2.2.2.2.1, hearsAck_run.1, hearsAck_run.2⟩

/-- C15, as stated, fails in one point: on a dead peripheral with all registers
zero not every wait of `I2cReadReg(0, 0x0010)` times out.  Its 12 waits take 972
samples, 241 in each of the four waits on `SEN`, `RSEN`, `ACKEN` and `PEN` and one
in each of the eight waits on `TBF` and `TRSTAT`; twelve timed-out waits would
take 2892. -/
theorem C15_not_every_wait_times_out :
    (I2cReadReg dsPIC33FJ unresponsive 0 0x0010 (World.init ())).2.waits = 12 ∧
    (I2cReadReg dsPIC33FJ unresponsive 0 0x0010 (World.init ())).2.samples = 972 ∧
    972 = 4 * 241 + 8 * 1 ∧ 972 < 12 * 241 :=
  have h := I2cReadReg_dead dsPIC33FJ 0 0x0010 0 0 0 [] 0 0 0 0
  ⟨h.2.2, h.1, by decide, by decide⟩

/-- C15, amended: `I2cReadReg` never stores into the receive register.  When no
register is ever changed by the peripheral, whichever of the waits time out,
`I2cReadReg` still runs its whole sequence (all thirteen primitives, 12 waits, at
most 2892 samples) and returns exactly the value the 8-bit receive register held
before the call; its result carries no error. -/
theorem C15_read_returns_stale_value (hdr : DeviceHeader) (hw : Hardware σ) (w : World σ)
    (select reg : Nat) (hdead : ∀ a s r, (hw.react a s r).2 = r)
    (hrcv : w.regs.I2C1RCV < 256) :
    (I2cReadReg hdr hw select reg w).1 = w.regs.I2C1RCV ∧
    (I2cReadReg hdr hw select reg w).2.regs.I2C1RCV = w.regs.I2C1RCV ∧
    (I2cReadReg hdr hw select reg w).2.trace =
      w.trace ++
        [.start, .writeByte (addressByte select false false), .idle,
         .writeByte ((reg >>> 8) % 256), .idle, .writeByte ((reg % 256) % 256), .idle,
         .restart, .writeByte (addressByte select false true), .idle,
         .readEnable, .nack, .stop] ∧
    (I2cReadReg hdr hw select reg w).2.waits = w.waits + 12 ∧
    (I2cReadReg hdr hw select reg w).2.samples ≤ w.samples + 2892 := by
  have hR : ∀ a s r, (hw.react a s r).2.I2C1RCV = r.I2C1RCV := fun a s r => by
    rw [hdead a s r]
  have h := I2cReadReg_rcv hdr hw hR select reg w
  have hruns := I2cReadReg_snd_runs hdr hw select reg w
  refine ⟨?_, h.2, hruns.trace_eq, hruns.waits_eq, ?_⟩
  · rw [h.1]
    exact Nat.mod_eq_of_lt hrcv
  · simpa [TIMEOUT] using hruns.samples_le

/-- Witness of C15: a dead peripheral whose receive register holds 0x5A. -/
theorem C15_read_returns_stale_value_witness :
    (∀ (a : Access) (s : Unit) (r : Regs), (unresponsive.react a s r).2 = r) ∧
    (deadWorld 0 0 0x5A [] 0 0 0 0).regs.I2C1RCV < 256 ∧
    (I2cReadReg dsPIC33FJ unresponsive 0 0x0010 (deadWorld 0 0 0x5A [] 0 0 0 0)).1 = 0x5A :=
  ⟨fun _ _ _ => rfl, by decide,
   (C15_read_returns_stale_value dsPIC33FJ unresponsive (deadWorld 0 0 0x5A [] 0 0 0 0)
     0 0x0010 (fun _ _ _ => rfl) (by decide)).1⟩

/-- C16: `I2cWriteAddress` does not mask select.  For every 8-bit select, page and
op the byte written is `(0xA0 | (select<<2) | (page<<1) | op) mod 256`; its top
nibble is the device id 0b1010 exactly when bits 2 and 4 of select are zero;
select 4 gives 0xB0, whose top nibble is 0b1011. -/
theorem C16_select_not_masked (hdr : DeviceHeader) (hw : Hardware σ) (w : World σ)
    (select : Nat) (page op : Bool) (hs : select < 256) :
    (I2cWriteAddress hdr hw select page op w).trace =
      w.trace ++
        [.writeByte ((0xA0 ||| (select <<< 2) ||| (page.toNat <<< 1) ||| op.toNat) % 256)] ∧
    (((0xA0 ||| (select <<< 2) ||| (page.toNat <<< 1) ||| op.toNat) % 256) >>> 4 = 0b1010 ↔
      (select.testBit 2 = false ∧ select.testBit 4 = false)) ∧
    (0xA0 ||| (4 <<< 2) ||| (false.toNat <<< 1) ||| false.toNat) % 256 = 0xB0 ∧
    0xB0 >>> 4 = 0b1011 :=
  ⟨(I2cWriteAddress_runs hdr hw select page op w).trace_eq,
   addressByte_nibble select hs page op, by decide, by decide⟩

/-- Witness of C16 at select 4 on a dead peripheral. -/
theorem C16_select_not_masked_witness :
    (4 < 256) ∧
    (I2cWriteAddress dsPIC33FJ unresponsive 4 false false (World.init ())).trace =
      (World.init ()).trace ++
        [.writeByte ((0xA0 ||| (4 <<< 2) ||| (false.toNat <<< 1) ||| false.toNat) % 256)] ∧
    (((0xA0 ||| (4 <<< 2) ||| (false.toNat <<< 1) ||| false.toNat) % 256) >>> 4
        = 0b1010 ↔
      ((4 : Nat).testBit 2 = false ∧ (4 : Nat).testBit 4 = false)) ∧
    (0xA0 ||| (4 <<< 2) ||| (false.toNat <<< 1) ||| false.toNat) % 256 = 0xB0 ∧
    0xB0 >>> 4 = 0b1011 :=
  ⟨by decide,
   C16_select_not_masked dsPIC33FJ unresponsive (World.init ()) 4 false false (by decide)⟩

/-- C17: when `I2cTimeoutHandle` returns on a cleared condition, at sample N, it
has performed N - 1 delays, one fewer than its samples, so one sample and no delay
when the masked bits read zero at the first sample; when it times out it has
performed 241 samples and 241 delays.  It stores into no register: it reaches the
hardware through loads of the polled register and delays only, and on a dead
peripheral it leaves every register as it was. -/
theorem C17_delays_and_samples (hw : Hardware σ) (reg : Reg) (mask : Nat) (w : World σ)
    (v : World Unit) :
    ((∃ N : Nat, 1 ≤ N ∧ N ≤ 241 ∧
        (∀ k, 1 ≤ k → k < N → sampleNo hw reg mask w k ≠ 0) ∧
        sampleNo hw reg mask w N = 0 ∧
        (I2cTimeoutHandle hw reg mask w).samples = w.samples + N ∧
        (I2cTimeoutHandle hw reg mask w).delays + 1 = w.delays + N) ∨
      ((∀ k, 1 ≤ k → k ≤ 241 → sampleNo hw reg mask w k ≠ 0) ∧
        (I2cTimeoutHandle hw reg mask w).samples = w.samples + 241 ∧
        (I2cTimeoutHandle hw reg mask w).delays = w.delays + 241)) ∧
    (sampleNo hw reg mask w 1 = 0 →
      (I2cTimeoutHandle hw reg mask w).samples = w.samples + 1 ∧
      (I2cTimeoutHandle hw reg mask w).delays = w.delays) ∧
    (∃ accs : List Access,
      (∀ a ∈ accs, a = .read reg ∨ a = .delay) ∧
      ((I2cTimeoutHandle hw reg mask w).dev, (I2cTimeoutHandle hw reg mask w).regs) =
        accs.foldl (fun s a => hw.react a s.1 s.2) (w.dev, w.regs)) ∧
    (I2cTimeoutHandle unresponsive reg mask v).regs = v.regs := by
  refine ⟨?_, ?_, ?_, unresponsive_wait_regs reg mask v⟩
  · by_cases h : ∃ k, 1 ≤ k ∧ k ≤ 241 ∧ sampleNo hw reg mask w k = 0
    · left
      have hspec := Nat.find_spec h
      have hnz : ∀ k, 1 ≤ k → k < Nat.find h → sampleNo hw reg mask w k ≠ 0 := by
        intro k hk1 hk hz
        exact Nat.find_min h hk ⟨hk1, by omega, hz⟩
      have hc := I2cTimeoutHandle_clears hw reg mask w (Nat.find h) hspec.1
        (by simp only [TIMEOUT]; omega) hnz hspec.2.2
      refine ⟨Nat.find h, hspec.1, hspec.2.1, hnz, hspec.2.2, hc.1, ?_⟩
      rw [hc.2]
      omega
    · right
      have hnz : ∀ k, 1 ≤ k → k ≤ 241 → sampleNo hw reg mask w k ≠ 0 :=
        fun k hk1 hk hz => h ⟨k, hk1, hk, hz⟩
      have he := I2cTimeoutHandle_expires hw reg mask w
        (fun k hk1 hk => hnz k hk1 (by simp only [TIMEOUT] at hk; omega))
      exact ⟨hnz, by simpa [TIMEOUT] using he.1, by simpa [TIMEOUT] using he.2⟩
  · intro hz
    have hc := I2cTimeoutHandle_clears hw reg mask w 1 (le_refl 1)
      (by simp only [TIMEOUT]; omega) (fun k h1 h2 => absurd h1 (by omega)) hz
    exact ⟨hc.1, hc.2⟩
  · exact I2cTimeoutLoop_accesses hw reg mask 0 { w with waits := w.waits + 1 }

/-- Witness of C17: a peripheral that clears the status at the third load; the
wait takes three samples and two delays. -/
theorem C17_delays_and_samples_witness :
    (I2cTimeoutHandle (clearsAt 3) .I2C1STAT (fieldMask dsPIC33FJ.TRSTAT)
      (World.init 0)).samples = 3 ∧
    (I2cTimeoutHandle (clearsAt 3) .I2C1STAT (fieldMask dsPIC33FJ.TRSTAT)
      (World.init 0)).delays = 2 := by
  have h := (C17_delays_and_samples (clearsAt 3) .I2C1STAT (fieldMask dsPIC33FJ.TRSTAT)
    (World.init 0) (World.init ())).1
  have h3 :
      sampleNo (clearsAt 3) .I2C1STAT (fieldMask dsPIC33FJ.TRSTAT) (World.init 0) 3 = 0 := by
    decide
  have h12 : ∀ k, 1 ≤ k → k < 3 →
      sampleNo (clearsAt 3) .I2C1STAT (fieldMask dsPIC33FJ.TRSTAT) (World.init 0) k ≠ 0 := by
    intro k hk1 hk3
    interval_cases k <;> decide
  rcases h with ⟨N, h1, _, hnz, hz, hs, hd⟩ | ⟨hnz, _, _⟩
  · have hN : N = 3 := by
      rcases Nat.lt_trichotomy N 3 with hlt | heq | hgt
      · exact absurd hz (h12 N h1 hlt)
      · exact heq
      · exact absurd h3 (hnz 3 (by decide) hgt)
    subst hN
    exact ⟨hs, by simpa using hd⟩
  · exact absurd h3 (hnz 3 (by decide) (by decide))

end I2C
